import Mathlib

/-!
Shallow embedding of the LPStaking contract (src/contracts/LPStaking.sol,
the full revision) and proofs about its reward accounting and multisig
proposal machinery.

Modelling conventions:
* `uint256` values are `Nat`; Solidity 0.8 checked arithmetic reverts on
  division by zero, which we model with an explicit `Err.divisionByZero`
  result; the checked subtractions that appear in the contract are only
  reached in states where they cannot underflow, so plain truncating `Nat`
  subtraction coincides with the source there.
* addresses are `Nat` (0 playing the role of `address(0)`).
* storage mappings are function-valued fields updated with `updFn`.
* token transfers move balances tracked inside the state and fail (aborting
  the whole call, as `SafeERC20` does) when the payer balance is too small.
-/

namespace LPStaking

def PRECISION : Nat := 10 ^ 18
def MAX_WEIGHT : Nat := 10 ^ 21
def MIN_STAKE : Nat := 10 ^ 15
def MAX_PAIRS : Nat := 100
def REQUIRED_APPROVALS : Nat := 3
def TOTAL_SIGNERS : Nat := 4
def SECONDS_PER_HOUR : Nat := 3600
def ACTION_EXPIRY : Nat := 7 * 86400
def UINT128_MAX : Nat := 2 ^ 128 - 1

inductive Err where
  | notAdmin
  | invalidActionId
  | alreadyExecuted
  | actionHasExpired
  | actionNotExpiredYet
  | alreadyMarkedExpired
  | alreadyApproved
  | insufficientApprovals
  | pairAlreadyExists
  | pairDoesNotExist
  | tooManyPairs
  | weightTooHigh
  | platformTooLong
  | pairNotActive
  | zeroWeight
  | stakeTooLow
  | stakeTooHigh
  | insufficientStake
  | noRewards
  | transferFailed
  | divisionByZero
  | invalidRecipient
  | zeroAmount
  | amountTooLarge
  | rateTooHigh
  | lengthMismatch
  | emptyArrays
  | invalidAddress
  | emptyName
  | nameTooLong
  | badSignerCount
  | oldSignerMissing
  | newSignerExists
  deriving DecidableEq, Repr

structure LiquidityPair where
  lpToken : Nat
  pairName : String
  platform : String
  weight : Nat
  isActive : Bool
  deriving DecidableEq, Repr

def emptyPair : LiquidityPair :=
  { lpToken := 0, pairName := "", platform := "", weight := 0, isActive := false }

structure UserStake where
  amount : Nat
  lastRewardTime : Nat
  pendingRewards : Nat
  rewardPerTokenPaid : Nat
  deriving DecidableEq, Repr

def emptyStake : UserStake :=
  { amount := 0, lastRewardTime := 0, pendingRewards := 0, rewardPerTokenPaid := 0 }

inductive ActionType where
  | SET_HOURLY_REWARD_RATE
  | UPDATE_PAIR_WEIGHTS
  | ADD_PAIR
  | REMOVE_PAIR
  | CHANGE_SIGNER
  | WITHDRAW_REWARDS
  deriving DecidableEq, Repr

structure PendingAction where
  actionType : ActionType
  newHourlyRewardRate : Nat
  pairs : List Nat
  weights : List Nat
  pairToAdd : Nat
  pairNameToAdd : String
  platformToAdd : String
  weightToAdd : Nat
  pairToRemove : Nat
  recipient : Nat
  withdrawAmount : Nat
  executed : Bool
  expired : Bool
  approvals : Nat
  approvedBy : List Nat
  proposedTime : Nat
  deriving DecidableEq, Repr

def emptyAction : PendingAction :=
  { actionType := ActionType.SET_HOURLY_REWARD_RATE
    newHourlyRewardRate := 0
    pairs := []
    weights := []
    pairToAdd := 0
    pairNameToAdd := ""
    platformToAdd := ""
    weightToAdd := 0
    pairToRemove := 0
    recipient := 0
    withdrawAmount := 0
    executed := false
    expired := false
    approvals := 0
    approvedBy := []
    proposedTime := 0 }

def updFn {α : Type} (f : Nat → α) (k : Nat) (v : α) : Nat → α :=
  fun x => if x = k then v else f x

def updFn2 {α : Type} (f : Nat → Nat → α) (k1 k2 : Nat) (v : α) : Nat → Nat → α :=
  fun x y => if x = k1 ∧ y = k2 then v else f x y

structure State where
  rewardToken : Nat
  hourlyRewardRate : Nat
  pairs : Nat → LiquidityPair
  userStakes : Nat → Nat → UserStake
  activePairs : List Nat
  signers : List Nat
  rewardPerTokenStored : Nat → Nat
  lastUpdateTime : Nat → Nat
  totalWeight : Nat
  actionCounter : Nat
  actions : Nat → PendingAction
  isAdmin : Nat → Bool
  lpBal : Nat → Nat
  userLpBal : Nat → Nat → Nat
  rewardBal : Nat
  userRewardBal : Nat → Nat

def initState (rt : Nat) (sgs : List Nat) : Except Err State :=
  if sgs.length ≠ TOTAL_SIGNERS then .error .badSignerCount
  else if rt = 0 then .error .invalidAddress
  else if sgs.any (fun a => a = 0) then .error .invalidAddress
  else .ok
    { rewardToken := rt
      hourlyRewardRate := 0
      pairs := fun _ => emptyPair
      userStakes := fun _ _ => emptyStake
      activePairs := []
      signers := sgs
      rewardPerTokenStored := fun _ => 0
      lastUpdateTime := fun _ => 0
      totalWeight := 0
      actionCounter := 0
      actions := fun _ => emptyAction
      isAdmin := fun a => sgs.contains a
      lpBal := fun _ => 0
      userLpBal := fun _ _ => 0
      rewardBal := 0
      userRewardBal := fun _ => 0 }

def updateRewardPerToken (s : State) (now lpToken : Nat) : Except Err State :=
  let totalSupply := s.lpBal lpToken
  let timeDelta := now - s.lastUpdateTime lpToken
  if 0 < totalSupply ∧ 0 < timeDelta then
    if s.totalWeight = 0 then .error .divisionByZero
    else
      let rewardPerSecond := s.hourlyRewardRate / SECONDS_PER_HOUR
      let pairRewards := rewardPerSecond * timeDelta * (s.pairs lpToken).weight / s.totalWeight
      .ok { s with
              rewardPerTokenStored := updFn s.rewardPerTokenStored lpToken
                (s.rewardPerTokenStored lpToken + pairRewards * PRECISION / totalSupply)
              lastUpdateTime := updFn s.lastUpdateTime lpToken now }
  else
    .ok { s with lastUpdateTime := updFn s.lastUpdateTime lpToken now }

def earned (s : State) (now user lpToken : Nat) : Except Err Nat :=
  let stk := s.userStakes user lpToken
  let base := s.rewardPerTokenStored lpToken
  if s.lastUpdateTime lpToken < now ∧ 0 < s.lpBal lpToken then
    if s.totalWeight = 0 then .error .divisionByZero
    else
      let timeDelta := now - s.lastUpdateTime lpToken
      let rewardPerSecond := s.hourlyRewardRate / SECONDS_PER_HOUR
      let pairRewards := rewardPerSecond * timeDelta * (s.pairs lpToken).weight / s.totalWeight
      let cur := base + pairRewards * PRECISION / s.lpBal lpToken
      .ok (stk.amount * (cur - stk.rewardPerTokenPaid) / PRECISION + stk.pendingRewards)
  else
    .ok (stk.amount * (base - stk.rewardPerTokenPaid) / PRECISION + stk.pendingRewards)

def stake (s : State) (now user lpToken amount : Nat) : Except Err State :=
  let pair := s.pairs lpToken
  if ¬ pair.isActive then .error .pairNotActive
  else if pair.weight = 0 then .error .zeroWeight
  else if amount < MIN_STAKE then .error .stakeTooLow
  else if UINT128_MAX < amount then .error .stakeTooHigh
  else
    match updateRewardPerToken s now lpToken with
    | .error e => .error e
    | .ok s1 =>
      let stk := s1.userStakes user lpToken
      match (if 0 < stk.amount then earned s1 now user lpToken else .ok stk.pendingRewards) with
      | .error e => .error e
      | .ok pend =>
        if s1.userLpBal user lpToken < amount then .error .transferFailed
        else
          .ok { s1 with
                  userStakes := updFn2 s1.userStakes user lpToken
                    { amount := stk.amount + amount
                      lastRewardTime := now
                      pendingRewards := pend
                      rewardPerTokenPaid := s1.rewardPerTokenStored lpToken }
                  userLpBal := updFn2 s1.userLpBal user lpToken
                    (s1.userLpBal user lpToken - amount)
                  lpBal := updFn s1.lpBal lpToken (s1.lpBal lpToken + amount) }

/-- Returns the new state together with the amount of reward tokens actually
transferred to the user by this call (the LP amount returned is the `amount`
argument itself).  The source pays the accrued reward out only in the
full-withdrawal branch; in the partial branch `pendingRewards` is zeroed
without any reward transfer. -/
def unstake (s : State) (now user lpToken amount : Nat) : Except Err (State × Nat) :=
  if ¬ (s.pairs lpToken).isActive then .error .pairNotActive
  else if (s.userStakes user lpToken).amount < amount then .error .insufficientStake
  else
    match updateRewardPerToken s now lpToken with
    | .error e => .error e
    | .ok s1 =>
      match earned s1 now user lpToken with
      | .error e => .error e
      | .ok rewards =>
        let stk := s1.userStakes user lpToken
        if amount = stk.amount then
          if s1.lpBal lpToken < amount then .error .transferFailed
          else if 0 < rewards ∧ s1.rewardBal < rewards then .error .transferFailed
          else
            .ok ({ s1 with
                    userStakes := updFn2 s1.userStakes user lpToken
                      { amount := 0
                        lastRewardTime := stk.lastRewardTime
                        pendingRewards := 0
                        rewardPerTokenPaid := s1.rewardPerTokenStored lpToken }
                    lpBal := updFn s1.lpBal lpToken (s1.lpBal lpToken - amount)
                    userLpBal := updFn2 s1.userLpBal user lpToken
                      (s1.userLpBal user lpToken + amount)
                    rewardBal := s1.rewardBal - rewards
                    userRewardBal := updFn s1.userRewardBal user
                      (s1.userRewardBal user + rewards) }, rewards)
        else
          if s1.lpBal lpToken < amount then .error .transferFailed
          else
            .ok ({ s1 with
                    userStakes := updFn2 s1.userStakes user lpToken
                      { amount := stk.amount - amount
                        lastRewardTime := stk.lastRewardTime
                        pendingRewards := 0
                        rewardPerTokenPaid := s1.rewardPerTokenStored lpToken }
                    lpBal := updFn s1.lpBal lpToken (s1.lpBal lpToken - amount)
                    userLpBal := updFn2 s1.userLpBal user lpToken
                      (s1.userLpBal user lpToken + amount) }, 0)

/-- Returns the new state together with the amount of reward tokens
transferred. -/
def claimRewards (s : State) (now user lpToken : Nat) : Except Err (State × Nat) :=
  if ¬ (s.pairs lpToken).isActive then .error .pairNotActive
  else
    match updateRewardPerToken s now lpToken with
    | .error e => .error e
    | .ok s1 =>
      match earned s1 now user lpToken with
      | .error e => .error e
      | .ok rewards =>
        if rewards = 0 then .error .noRewards
        else if s1.rewardBal < rewards then .error .transferFailed
        else
          let stk := s1.userStakes user lpToken
          .ok ({ s1 with
                  userStakes := updFn2 s1.userStakes user lpToken
                    { amount := stk.amount
                      lastRewardTime := stk.lastRewardTime
                      pendingRewards := 0
                      rewardPerTokenPaid := s1.rewardPerTokenStored lpToken }
                  rewardBal := s1.rewardBal - rewards
                  userRewardBal := updFn s1.userRewardBal user
                    (s1.userRewardBal user + rewards) }, rewards)

def isActionExpired (s : State) (now actionId : Nat) : Bool :=
  (s.actions actionId).proposedTime + ACTION_EXPIRY < now

def handleExpiredAction (s : State) (now actionId sender : Nat) : Except Err State :=
  if ¬ s.isAdmin sender then .error .notAdmin
  else if ¬ (0 < actionId ∧ actionId ≤ s.actionCounter) then .error .invalidActionId
  else
    let pa := s.actions actionId
    if pa.executed then .error .alreadyExecuted
    else if pa.expired then .error .alreadyMarkedExpired
    else if ¬ isActionExpired s now actionId then .error .actionNotExpiredYet
    else .ok { s with actions := updFn s.actions actionId { pa with expired := true } }

def cleanupLoop (now : Nat) (acts : Nat → PendingAction) : Nat → (Nat → PendingAction)
  | 0 => acts
  | i + 1 =>
    let acts1 := cleanupLoop now acts i
    let pa := acts1 (i + 1)
    if ¬ pa.executed ∧ ¬ pa.expired ∧ pa.proposedTime + ACTION_EXPIRY < now then
      updFn acts1 (i + 1) { pa with expired := true }
    else acts1

def cleanupExpiredActions (s : State) (now sender : Nat) : Except Err State :=
  if ¬ s.isAdmin sender then .error .notAdmin
  else .ok { s with actions := cleanupLoop now s.actions s.actionCounter }

def approveActionInternal (s : State) (now actionId sender : Nat) : Except Err State :=
  let pa := s.actions actionId
  if pa.executed then .error .alreadyExecuted
  else if pa.expired then .error .actionHasExpired
  else if pa.proposedTime + ACTION_EXPIRY < now then .error .actionHasExpired
  else if sender ∈ pa.approvedBy then .error .alreadyApproved
  else .ok { s with
              actions := updFn s.actions actionId
                { pa with approvedBy := pa.approvedBy ++ [sender]
                          approvals := pa.approvals + 1 } }

def approveAction (s : State) (now actionId sender : Nat) : Except Err State :=
  if ¬ s.isAdmin sender then .error .notAdmin
  else if ¬ (0 < actionId ∧ actionId ≤ s.actionCounter) then .error .invalidActionId
  else approveActionInternal s now actionId sender

def proposeWithdrawRewards (s : State) (now sender recipient amount : Nat) :
    Except Err (State × Nat) :=
  if ¬ s.isAdmin sender then .error .notAdmin
  else if recipient = 0 then .error .invalidRecipient
  else if amount = 0 then .error .zeroAmount
  else if s.rewardBal < amount then .error .amountTooLarge
  else if UINT128_MAX < amount then .error .amountTooLarge
  else
    let cid := s.actionCounter + 1
    let s1 := { s with
                  actionCounter := cid
                  actions := updFn s.actions cid
                    { s.actions cid with
                        actionType := ActionType.WITHDRAW_REWARDS
                        recipient := recipient
                        withdrawAmount := amount
                        proposedTime := now } }
    match approveActionInternal s1 now cid sender with
    | .error e => .error e
    | .ok s2 => .ok (s2, cid)

def proposeSetHourlyRewardRate (s : State) (now sender newRate : Nat) :
    Except Err (State × Nat) :=
  if ¬ s.isAdmin sender then .error .notAdmin
  else if UINT128_MAX < newRate then .error .rateTooHigh
  else
    let cid := s.actionCounter + 1
    let s1 := { s with
                  actionCounter := cid
                  actions := updFn s.actions cid
                    { s.actions cid with
                        actionType := ActionType.SET_HOURLY_REWARD_RATE
                        newHourlyRewardRate := newRate
                        proposedTime := now } }
    match approveActionInternal s1 now cid sender with
    | .error e => .error e
    | .ok s2 => .ok (s2, cid)

def proposeUpdatePairWeights (s : State) (now sender : Nat)
    (lpTokens weights : List Nat) : Except Err (State × Nat) :=
  if ¬ s.isAdmin sender then .error .notAdmin
  else if lpTokens.length ≠ weights.length then .error .lengthMismatch
  else if lpTokens.length = 0 then .error .emptyArrays
  else if MAX_PAIRS < lpTokens.length then .error .tooManyPairs
  else if ¬ (weights.all (fun w => w ≤ MAX_WEIGHT)) then .error .weightTooHigh
  else if ¬ (lpTokens.all (fun a => a ≠ 0)) then .error .invalidAddress
  else
    let cid := s.actionCounter + 1
    let s1 := { s with
                  actionCounter := cid
                  actions := updFn s.actions cid
                    { s.actions cid with
                        actionType := ActionType.UPDATE_PAIR_WEIGHTS
                        pairs := lpTokens
                        weights := weights
                        proposedTime := now } }
    match approveActionInternal s1 now cid sender with
    | .error e => .error e
    | .ok s2 => .ok (s2, cid)

def proposeAddPair (s : State) (now sender lpToken : Nat)
    (pairName platform : String) (weight : Nat) : Except Err (State × Nat) :=
  if ¬ s.isAdmin sender then .error .notAdmin
  else if lpToken = 0 then .error .invalidAddress
  else if weight = 0 then .error .zeroWeight
  else if MAX_WEIGHT < weight then .error .weightTooHigh
  else if pairName.length = 0 then .error .emptyName
  else if 32 < pairName.length then .error .nameTooLong
  else if platform.length = 0 then .error .emptyName
  else if 32 < platform.length then .error .platformTooLong
  else
    let cid := s.actionCounter + 1
    let s1 := { s with
                  actionCounter := cid
                  actions := updFn s.actions cid
                    { s.actions cid with
                        actionType := ActionType.ADD_PAIR
                        pairToAdd := lpToken
                        pairNameToAdd := pairName
                        platformToAdd := platform
                        weightToAdd := weight
                        proposedTime := now } }
    match approveActionInternal s1 now cid sender with
    | .error e => .error e
    | .ok s2 => .ok (s2, cid)

def proposeRemovePair (s : State) (now sender lpToken : Nat) : Except Err (State × Nat) :=
  if ¬ s.isAdmin sender then .error .notAdmin
  else if lpToken = 0 then .error .invalidAddress
  else if ¬ (s.pairs lpToken).isActive then .error .pairNotActive
  else
    let cid := s.actionCounter + 1
    let s1 := { s with
                  actionCounter := cid
                  actions := updFn s.actions cid
                    { s.actions cid with
                        actionType := ActionType.REMOVE_PAIR
                        pairToRemove := lpToken
                        proposedTime := now } }
    match approveActionInternal s1 now cid sender with
    | .error e => .error e
    | .ok s2 => .ok (s2, cid)

def proposeChangeSigner (s : State) (now sender oldSigner newSigner : Nat) :
    Except Err (State × Nat) :=
  if ¬ s.isAdmin sender then .error .notAdmin
  else if ¬ s.isAdmin oldSigner then .error .oldSignerMissing
  else if s.isAdmin newSigner then .error .newSignerExists
  else if newSigner = 0 then .error .invalidAddress
  else
    let cid := s.actionCounter + 1
    let s1 := { s with
                  actionCounter := cid
                  actions := updFn s.actions cid
                    { s.actions cid with
                        actionType := ActionType.CHANGE_SIGNER
                        pairToAdd := oldSigner
                        pairToRemove := newSigner
                        proposedTime := now } }
    match approveActionInternal s1 now cid sender with
    | .error e => .error e
    | .ok s2 => .ok (s2, cid)

def updateAllRewardsLoop (now : Nat) : List Nat → State → Except Err State
  | [], s => .ok s
  | lp :: rest, s =>
    match updateRewardPerToken s now lp with
    | .error e => .error e
    | .ok s1 => updateAllRewardsLoop now rest s1

def updateAllRewards (s : State) (now : Nat) : Except Err State :=
  updateAllRewardsLoop now s.activePairs s

def setPairWeights : List Nat → List Nat → (Nat → LiquidityPair) →
    Except Err (Nat → LiquidityPair)
  | [], _, pm => .ok pm
  | _ :: _, [], _ => .error .lengthMismatch
  | p :: pr, w :: wr, pm =>
    if (pm p).lpToken = 0 then .error .pairDoesNotExist
    else setPairWeights pr wr (updFn pm p { pm p with weight := w })

def sumWeights (pm : Nat → LiquidityPair) (l : List Nat) : Nat :=
  (l.map (fun p => (pm p).weight)).sum

def replaceFirst : List Nat → Nat → Nat → List Nat
  | [], _, _ => []
  | a :: t, oldv, newv => if a = oldv then newv :: t else a :: replaceFirst t oldv newv

/-- Swap-with-last-and-pop removal used by `_removeActivePair`: the first
occurrence of `x` is overwritten with the last element of the list and the
last element is then dropped; a list not containing `x` is returned
unchanged. -/
def removeActivePair (l : List Nat) (x : Nat) : List Nat :=
  if x ∈ l then (l.set (l.indexOf x) (l.getLastD 0)).dropLast else l

def execDispatch (s : State) (now : Nat) (pa : PendingAction) : Except Err State :=
  match pa.actionType with
  | ActionType.SET_HOURLY_REWARD_RATE =>
    match updateAllRewards s now with
    | .error e => .error e
    | .ok s1 => .ok { s1 with hourlyRewardRate := pa.newHourlyRewardRate }
  | ActionType.UPDATE_PAIR_WEIGHTS =>
    match updateAllRewards s now with
    | .error e => .error e
    | .ok s1 =>
      match setPairWeights pa.pairs pa.weights s1.pairs with
      | .error e => .error e
      | .ok pm => .ok { s1 with pairs := pm, totalWeight := sumWeights pm s1.activePairs }
  | ActionType.ADD_PAIR =>
    if (s.pairs pa.pairToAdd).lpToken ≠ 0 then .error .pairAlreadyExists
    else if MAX_PAIRS ≤ s.activePairs.length then .error .tooManyPairs
    else if MAX_WEIGHT < pa.weightToAdd then .error .weightTooHigh
    else if 32 < pa.platformToAdd.length then .error .platformTooLong
    else .ok { s with
                pairs := updFn s.pairs pa.pairToAdd
                  { lpToken := pa.pairToAdd
                    pairName := pa.pairNameToAdd
                    platform := pa.platformToAdd
                    weight := pa.weightToAdd
                    isActive := true }
                activePairs := s.activePairs ++ [pa.pairToAdd]
                totalWeight := s.totalWeight + pa.weightToAdd
                lastUpdateTime := updFn s.lastUpdateTime pa.pairToAdd now }
  | ActionType.REMOVE_PAIR =>
    let lp := pa.pairToRemove
    if ¬ (s.pairs lp).isActive then .error .pairNotActive
    else .ok { s with
                totalWeight := s.totalWeight - (s.pairs lp).weight
                pairs := updFn s.pairs lp
                  { s.pairs lp with isActive := false, weight := 0 }
                activePairs := removeActivePair s.activePairs lp }
  | ActionType.CHANGE_SIGNER =>
    let oldSigner := pa.pairToAdd
    let newSigner := pa.pairToRemove
    .ok { s with
            isAdmin := updFn (updFn s.isAdmin oldSigner false) newSigner true
            signers := replaceFirst s.signers oldSigner newSigner }
  | ActionType.WITHDRAW_REWARDS =>
    if pa.recipient = 0 then .error .invalidRecipient
    else if s.rewardBal < pa.withdrawAmount then .error .transferFailed
    else .ok { s with
                rewardBal := s.rewardBal - pa.withdrawAmount
                userRewardBal := updFn s.userRewardBal pa.recipient
                  (s.userRewardBal pa.recipient + pa.withdrawAmount) }

def executeAction (s : State) (now actionId sender : Nat) : Except Err State :=
  if ¬ s.isAdmin sender then .error .notAdmin
  else if ¬ (0 < actionId ∧ actionId ≤ s.actionCounter) then .error .invalidActionId
  else
    let pa := s.actions actionId
    if pa.executed then .error .alreadyExecuted
    else if pa.expired then .error .actionHasExpired
    else if pa.approvals < REQUIRED_APPROVALS then .error .insufficientApprovals
    else if pa.proposedTime + ACTION_EXPIRY < now then .error .actionHasExpired
    else
      match execDispatch s now pa with
      | .error e => .error e
      | .ok s1 =>
        .ok { s1 with
                actions := updFn s1.actions actionId
                  { s1.actions actionId with executed := true } }

/-- One external invocation of the contract (or an external token movement:
`fundA` models minting LP tokens to a user, donating LP tokens to the
contract, and refilling the contract's reward-token balance, all of which
can happen without the contract's participation). -/
inductive Act where
  | stakeA (user lpToken amount : Nat)
  | unstakeA (user lpToken amount : Nat)
  | claimA (user lpToken : Nat)
  | proposeWithdrawA (sender recipient amount : Nat)
  | proposeRateA (sender newRate : Nat)
  | proposeWeightsA (sender : Nat) (lpTokens weights : List Nat)
  | proposeAddA (sender lpToken : Nat) (pairName platform : String) (weight : Nat)
  | proposeRemoveA (sender lpToken : Nat)
  | proposeChangeSignerA (sender oldSigner newSigner : Nat)
  | approveA (sender actionId : Nat)
  | executeA (sender actionId : Nat)
  | handleExpiredA (sender actionId : Nat)
  | cleanupA (sender : Nat)
  | fundA (user lpToken userAmt contractAmt rewardAmt : Nat)

def applyAct (now : Nat) (a : Act) (s : State) : Except Err State :=
  match a with
  | .stakeA u lp amt => stake s now u lp amt
  | .unstakeA u lp amt => (unstake s now u lp amt).map Prod.fst
  | .claimA u lp => (claimRewards s now u lp).map Prod.fst
  | .proposeWithdrawA sd r amt => (proposeWithdrawRewards s now sd r amt).map Prod.fst
  | .proposeRateA sd r => (proposeSetHourlyRewardRate s now sd r).map Prod.fst
  | .proposeWeightsA sd ls ws => (proposeUpdatePairWeights s now sd ls ws).map Prod.fst
  | .proposeAddA sd lp nm pf w => (proposeAddPair s now sd lp nm pf w).map Prod.fst
  | .proposeRemoveA sd lp => (proposeRemovePair s now sd lp).map Prod.fst
  | .proposeChangeSignerA sd o n => (proposeChangeSigner s now sd o n).map Prod.fst
  | .approveA sd id => approveAction s now id sd
  | .executeA sd id => executeAction s now id sd
  | .handleExpiredA sd id => handleExpiredAction s now id sd
  | .cleanupA sd => cleanupExpiredActions s now sd
  | .fundA u lp ua ca ra =>
    .ok { s with
            userLpBal := updFn2 s.userLpBal u lp (s.userLpBal u lp + ua)
            lpBal := updFn s.lpBal lp (s.lpBal lp + ca)
            rewardBal := s.rewardBal + ra }

/-- Reachability: `Reach t0 s0 t s` holds when, starting from state `s0` at
time `t0`, some sequence of
successful external invocations at non-decreasing block timestamps ends in
state `s` at time `t`. -/
inductive Reach : Nat → State → Nat → State → Prop
  | refl (t : Nat) (s : State) : Reach t s t s
  | step {t0 : Nat} {s0 : State} {t1 : Nat} {s1 : State} {t2 : Nat} {s2 : State}
      (a : Act) : Reach t0 s0 t1 s1 → t1 ≤ t2 → applyAct t2 a s1 = .ok s2 →
      Reach t0 s0 t2 s2

/-- A state is reachable when it arises from a successfully deployed contract
by some sequence of successful calls. -/
def Reachable (t : Nat) (s : State) : Prop :=
  ∃ rt sgs t0 s0, initState rt sgs = .ok s0 ∧ Reach t0 s0 t s

theorem updFn_apply_same {α : Type} (f : Nat → α) (k : Nat) (v : α) :
    updFn f k v k = v := by simp [updFn]

theorem updFn_apply_ne {α : Type} (f : Nat → α) {k x : Nat} (v : α) (h : x ≠ k) :
    updFn f k v x = f x := by simp [updFn, h]

theorem reach_le {t0 : Nat} {s0 : State} {t : Nat} {s : State}
    (h : Reach t0 s0 t s) : t0 ≤ t := by
  induction h with
  | refl => exact le_refl _
  | step a hr hle happ ih => exact le_trans ih hle

theorem updateRewardPerToken_cases {s : State} {now lp : Nat} {s1 : State}
    (h : updateRewardPerToken s now lp = .ok s1) :
    (0 < s.lpBal lp ∧ 0 < now - s.lastUpdateTime lp ∧ s.totalWeight ≠ 0 ∧
      s1 = { s with
              rewardPerTokenStored := updFn s.rewardPerTokenStored lp
                (s.rewardPerTokenStored lp +
                  s.hourlyRewardRate / SECONDS_PER_HOUR * (now - s.lastUpdateTime lp) *
                      (s.pairs lp).weight / s.totalWeight * PRECISION / s.lpBal lp)
              lastUpdateTime := updFn s.lastUpdateTime lp now }) ∨
    (¬ (0 < s.lpBal lp ∧ 0 < now - s.lastUpdateTime lp) ∧
      s1 = { s with lastUpdateTime := updFn s.lastUpdateTime lp now }) := by
  unfold updateRewardPerToken at h
  by_cases hsup : 0 < s.lpBal lp ∧ 0 < now - s.lastUpdateTime lp
  · rw [if_pos hsup] at h
    by_cases htw : s.totalWeight = 0
    · rw [if_pos htw] at h; simp at h
    · rw [if_neg htw] at h
      injection h with h
      exact Or.inl ⟨hsup.1, hsup.2, htw, h.symm⟩
  · rw [if_neg hsup] at h
    injection h with h
    exact Or.inr ⟨hsup, h.symm⟩

theorem update_userStakes {s : State} {now lp : Nat} {s1 : State}
    (h : updateRewardPerToken s now lp = .ok s1) : s1.userStakes = s.userStakes := by
  rcases updateRewardPerToken_cases h with ⟨_, _, _, rfl⟩ | ⟨_, rfl⟩ <;> rfl

theorem update_pairs {s : State} {now lp : Nat} {s1 : State}
    (h : updateRewardPerToken s now lp = .ok s1) : s1.pairs = s.pairs := by
  rcases updateRewardPerToken_cases h with ⟨_, _, _, rfl⟩ | ⟨_, rfl⟩ <;> rfl

theorem update_lastUpdateTime {s : State} {now lp : Nat} {s1 : State}
    (h : updateRewardPerToken s now lp = .ok s1) : s1.lastUpdateTime lp = now := by
  rcases updateRewardPerToken_cases h with ⟨_, _, _, rfl⟩ | ⟨_, rfl⟩ <;>
    exact updFn_apply_same _ _ _

theorem earned_stale {s : State} {now u lp : Nat}
    (hc : ¬ (s.lastUpdateTime lp < now ∧ 0 < s.lpBal lp)) :
    earned s now u lp = .ok ((s.userStakes u lp).amount *
      (s.rewardPerTokenStored lp - (s.userStakes u lp).rewardPerTokenPaid) / PRECISION +
      (s.userStakes u lp).pendingRewards) := by
  unfold earned
  rw [if_neg hc]

theorem earned_live {s : State} {now u lp : Nat}
    (hc1 : s.lastUpdateTime lp < now) (hc2 : 0 < s.lpBal lp)
    (htw : s.totalWeight ≠ 0) :
    earned s now u lp = .ok ((s.userStakes u lp).amount *
      (s.rewardPerTokenStored lp +
        s.hourlyRewardRate / SECONDS_PER_HOUR * (now - s.lastUpdateTime lp) *
          (s.pairs lp).weight / s.totalWeight * PRECISION / s.lpBal lp -
        (s.userStakes u lp).rewardPerTokenPaid) / PRECISION +
      (s.userStakes u lp).pendingRewards) := by
  unfold earned
  rw [if_pos ⟨hc1, hc2⟩, if_neg htw]

theorem earned_updateRewardPerToken {s : State} {now lp : Nat} {s1 : State}
    (h : updateRewardPerToken s now lp = .ok s1) (u : Nat) :
    earned s1 now u lp = earned s now u lp := by
  have hstk : s1.userStakes = s.userStakes := update_userStakes h
  rcases updateRewardPerToken_cases h with ⟨hb, hd, htw, heq⟩ | ⟨hn, heq⟩
  · have hlast : s1.lastUpdateTime lp = now := by
      rw [heq]; exact updFn_apply_same _ _ _
    have hbal : s1.lpBal = s.lpBal := by rw [heq]
    have hstored : s1.rewardPerTokenStored lp =
        s.rewardPerTokenStored lp +
          s.hourlyRewardRate / SECONDS_PER_HOUR * (now - s.lastUpdateTime lp) *
            (s.pairs lp).weight / s.totalWeight * PRECISION / s.lpBal lp := by
      rw [heq]; exact updFn_apply_same _ _ _
    have hc : ¬ (s1.lastUpdateTime lp < now ∧ 0 < s1.lpBal lp) := by
      rw [hlast]; omega
    rw [earned_stale hc, earned_live (by omega) hb htw, hstk, hstored]
  · have hlast : s1.lastUpdateTime lp = now := by
      rw [heq]; exact updFn_apply_same _ _ _
    have hstored : s1.rewardPerTokenStored = s.rewardPerTokenStored := by rw [heq]
    have hc : ¬ (s1.lastUpdateTime lp < now ∧ 0 < s1.lpBal lp) := by
      rw [hlast]; omega
    have hc2 : ¬ (s.lastUpdateTime lp < now ∧ 0 < s.lpBal lp) :=
      fun hcon => hn ⟨hcon.2, by omega⟩
    rw [earned_stale hc, earned_stale hc2, hstk, hstored]

theorem claimRewards_ok {s : State} {now u lp : Nat} {s' : State} {paid : Nat}
    (hc : claimRewards s now u lp = .ok (s', paid)) :
    (s.pairs lp).isActive = true ∧
    ∃ s1, updateRewardPerToken s now lp = .ok s1 ∧
      earned s1 now u lp = .ok paid ∧ paid ≠ 0 ∧ ¬ s1.rewardBal < paid ∧
      s' = { s1 with
              userStakes := updFn2 s1.userStakes u lp
                { amount := (s1.userStakes u lp).amount
                  lastRewardTime := (s1.userStakes u lp).lastRewardTime
                  pendingRewards := 0
                  rewardPerTokenPaid := s1.rewardPerTokenStored lp }
              rewardBal := s1.rewardBal - paid
              userRewardBal := updFn s1.userRewardBal u (s1.userRewardBal u + paid) } := by
  unfold claimRewards at hc
  by_cases hact : (s.pairs lp).isActive
  · rw [if_neg (by simp [hact])] at hc
    refine ⟨hact, ?_⟩
    cases hu : updateRewardPerToken s now lp with
    | error e => rw [hu] at hc; dsimp only at hc; simp at hc
    | ok s1 =>
      rw [hu] at hc
      dsimp only at hc
      cases he : earned s1 now u lp with
      | error e => rw [he] at hc; dsimp only at hc; simp at hc
      | ok r =>
        rw [he] at hc
        dsimp only at hc
        by_cases hr0 : r = 0
        · rw [if_pos hr0] at hc; simp at hc
        · rw [if_neg hr0] at hc
          by_cases hbal : s1.rewardBal < r
          · rw [if_pos hbal] at hc; simp at hc
          · rw [if_neg hbal] at hc
            injection hc with hc
            injection hc with hc1 hc2
            subst hc2
            exact ⟨s1, rfl, he, hr0, hbal, hc1.symm⟩
  · rw [if_pos hact] at hc
    simp at hc

theorem updFn2_apply_same {α : Type} (f : Nat → Nat → α) (k1 k2 : Nat) (v : α) :
    updFn2 f k1 k2 v k1 k2 = v := by simp [updFn2]

theorem updFn2_apply_ne {α : Type} (f : Nat → Nat → α) {k1 k2 x y : Nat} (v : α)
    (h : ¬ (x = k1 ∧ y = k2)) : updFn2 f k1 k2 v x y = f x y := by simp [updFn2, h]

/-- A state in which the user's record is freshly settled against the pool
index (`pendingRewards = 0`, snapshot equal to the stored index, pool index
just synchronized at `now`) yields `NoRewards` from `claimRewards`. -/
theorem claimRewards_settled {t : State} {now u lp : Nat}
    (hact : (t.pairs lp).isActive = true)
    (hlast : t.lastUpdateTime lp = now)
    (hpend : (t.userStakes u lp).pendingRewards = 0)
    (hsnap : (t.userStakes u lp).rewardPerTokenPaid = t.rewardPerTokenStored lp) :
    claimRewards t now u lp = .error .noRewards := by
  unfold claimRewards
  rw [if_neg (by simp [hact])]
  have hu : updateRewardPerToken t now lp =
      .ok { t with lastUpdateTime := updFn t.lastUpdateTime lp now } := by
    unfold updateRewardPerToken
    rw [if_neg (by omega)]
  rw [hu]
  dsimp only
  have hc : ¬ (({ t with lastUpdateTime := updFn t.lastUpdateTime lp now } :
      State).lastUpdateTime lp < now ∧
      0 < ({ t with lastUpdateTime := updFn t.lastUpdateTime lp now } :
        State).lpBal lp) := by
    dsimp only
    rw [updFn_apply_same]
    omega
  rw [earned_stale hc]
  dsimp only
  rw [hpend, hsnap, Nat.sub_self]
  simp

/-- C2: the value returned by the read-only `earned(user, pool)` equals, to
the unit, the reward-token amount transferred by a `claimRewards(user, pool)`
call executed immediately afterwards (same timestamp, no intervening
operation). -/
theorem c2_earned_matches_claim_payout {s : State} {now u lp e : Nat}
    {s' : State} {paid : Nat}
    (he : earned s now u lp = .ok e)
    (hc : claimRewards s now u lp = .ok (s', paid)) : paid = e := by
  obtain ⟨hact, s1, hu, hpaid, -, -, -⟩ := claimRewards_ok hc
  rw [earned_updateRewardPerToken hu u, he] at hpaid
  injection hpaid with h
  exact h.symm

/-- C7: two `claimRewards` calls in immediate succession (same timestamp) pay
a nonzero amount only on the first call; the second fails `NoRewards`,
because the first claim zeroed `pendingRewards` and reset the index
snapshot. -/
theorem c7_no_double_claim {s : State} {now u lp : Nat} {s1 : State} {paid : Nat}
    (hc : claimRewards s now u lp = .ok (s1, paid)) :
    0 < paid ∧ claimRewards s1 now u lp = .error .noRewards := by
  obtain ⟨hact, s0, hu, hpaid, hpne, hbal, rfl⟩ := claimRewards_ok hc
  refine ⟨Nat.pos_of_ne_zero hpne, ?_⟩
  apply claimRewards_settled
  · dsimp only
    rw [update_pairs hu]
    exact hact
  · dsimp only
    exact update_lastUpdateTime hu
  · dsimp only
    rw [updFn2_apply_same]
  · dsimp only
    rw [updFn2_apply_same]

def fallbackState : State :=
  { rewardToken := 0, hourlyRewardRate := 0, pairs := fun _ => emptyPair,
    userStakes := fun _ _ => emptyStake, activePairs := [], signers := [],
    rewardPerTokenStored := fun _ => 0, lastUpdateTime := fun _ => 0,
    totalWeight := 0, actionCounter := 0, actions := fun _ => emptyAction,
    isAdmin := fun _ => false, lpBal := fun _ => 0, userLpBal := fun _ _ => 0,
    rewardBal := 0, userRewardBal := fun _ => 0 }

def okS : Except Err State → State
  | .ok s1 => s1
  | .error _ => fallbackState

/-- Concrete deployment: reward token 99, signers 2, 3, 4, 5. -/
def cs0 : State := okS (initState 99 [2, 3, 4, 5])

/-- User 10 is minted 10^18 units of LP token 7; the contract is funded with
10^21 reward tokens. -/
def cs1 : State := okS (applyAct 0 (Act.fundA 10 7 (10 ^ 18) 0 (10 ^ 21)) cs0)

/-- Action 1: add pair 7 with weight 7x10^18, proposed at t = 1000. -/
def cs2 : State :=
  okS (applyAct 1000 (Act.proposeAddA 2 7 "LIB-WETH" "Uniswap-V2" (7 * 10 ^ 18)) cs1)

def cs3 : State := okS (applyAct 1000 (Act.approveA 3 1) cs2)

def cs4 : State := okS (applyAct 1000 (Act.approveA 4 1) cs3)

def cs5 : State := okS (applyAct 1000 (Act.executeA 2 1) cs4)

/-- Action 2: set the hourly reward rate to 240x10^18. -/
def cs6 : State := okS (applyAct 1000 (Act.proposeRateA 2 (240 * 10 ^ 18)) cs5)

def cs7 : State := okS (applyAct 1000 (Act.approveA 3 2) cs6)

def cs8 : State := okS (applyAct 1000 (Act.approveA 4 2) cs7)

def cs9 : State := okS (applyAct 1000 (Act.executeA 2 2) cs8)

/-- User 10 stakes 10^18 LP units of pair 7 at t = 1000. -/
def cs10 : State := okS (applyAct 1000 (Act.stakeA 10 7 (10 ^ 18)) cs9)

theorem step_cs1 : applyAct 0 (Act.fundA 10 7 (10 ^ 18) 0 (10 ^ 21)) cs0 = .ok cs1 := rfl

theorem step_cs2 :
    applyAct 1000 (Act.proposeAddA 2 7 "LIB-WETH" "Uniswap-V2" (7 * 10 ^ 18)) cs1 =
      .ok cs2 := rfl

theorem step_cs3 : applyAct 1000 (Act.approveA 3 1) cs2 = .ok cs3 := rfl

theorem step_cs4 : applyAct 1000 (Act.approveA 4 1) cs3 = .ok cs4 := rfl

theorem step_cs5 : applyAct 1000 (Act.executeA 2 1) cs4 = .ok cs5 := rfl

theorem step_cs6 : applyAct 1000 (Act.proposeRateA 2 (240 * 10 ^ 18)) cs5 = .ok cs6 := rfl

theorem step_cs7 : applyAct 1000 (Act.approveA 3 2) cs6 = .ok cs7 := rfl

theorem step_cs8 : applyAct 1000 (Act.approveA 4 2) cs7 = .ok cs8 := rfl

theorem step_cs9 : applyAct 1000 (Act.executeA 2 2) cs8 = .ok cs9 := rfl

theorem step_cs10 : applyAct 1000 (Act.stakeA 10 7 (10 ^ 18)) cs9 = .ok cs10 := rfl

theorem reach_cs10 : Reach 0 cs0 1000 cs10 :=
  Reach.step _ (Reach.step _ (Reach.step _ (Reach.step _ (Reach.step _ (Reach.step _
    (Reach.step _ (Reach.step _ (Reach.step _ (Reach.step _ (Reach.refl 0 cs0)
      (by omega) step_cs1)
      (by omega) step_cs2)
      (by omega) step_cs3)
      (by omega) step_cs4)
      (by omega) step_cs5)
      (by omega) step_cs6)
      (by omega) step_cs7)
      (by omega) step_cs8)
      (by omega) step_cs9)
      (by omega) step_cs10

theorem reachable_cs10 : Reachable 1000 cs10 :=
  ⟨99, [2, 3, 4, 5], 0, cs0, rfl, reach_cs10⟩

/-- Action 3, proposed at t = 2000: set the weight of pair 7 to 0 (allowed by
`proposeUpdatePairWeights`, which only bounds weights from above). -/
def cs11 : State := okS (applyAct 2000 (Act.proposeWeightsA 2 [7] [0]) cs10)

def cs12 : State := okS (applyAct 2000 (Act.approveA 3 3) cs11)

def cs13 : State := okS (applyAct 2000 (Act.approveA 4 3) cs12)

def cs14 : State := okS (applyAct 2000 (Act.executeA 2 3) cs13)

theorem step_cs11 : applyAct 2000 (Act.proposeWeightsA 2 [7] [0]) cs10 = .ok cs11 := rfl

theorem step_cs12 : applyAct 2000 (Act.approveA 3 3) cs11 = .ok cs12 := rfl

theorem step_cs13 : applyAct 2000 (Act.approveA 4 3) cs12 = .ok cs13 := rfl

theorem step_cs14 : applyAct 2000 (Act.executeA 2 3) cs13 = .ok cs14 := rfl

theorem reach_cs14 : Reach 0 cs0 2000 cs14 :=
  Reach.step _ (Reach.step _ (Reach.step _ (Reach.step _ reach_cs10
    (by omega) step_cs11)
    (by omega) step_cs12)
    (by omega) step_cs13)
    (by omega) step_cs14

theorem reachable_cs14 : Reachable 2000 cs14 :=
  ⟨99, [2, 3, 4, 5], 0, cs0, rfl, reach_cs14⟩

/-- Result of unstaking the full staked amount at t = 4600, one hour after
the stake in `cs10` accrued rewards. -/
def c1s : State := okS ((unstake cs10 4600 10 7 (10 ^ 18)).map Prod.fst)

/-- C1: the claim describes an `unstake(amount, claim=false)` that leaves
`pendingRewards > 0` for a later `claimRewards`; the contract's `unstake` has
no `claim` parameter at all.  On a reachable state with a full hour of
accrued rewards, unstaking the full staked amount transfers the accrued
239999999999999997600 reward units immediately, leaves `amount = 0` and
`pendingRewards = 0`, and a subsequent `claimRewards` fails `NoRewards`:
there is no way to exit a position without also paying the reward out. -/
theorem c1_unstake_pays_immediately_no_claim_flag :
    Reachable 1000 cs10 ∧
    earned cs10 4600 10 7 = .ok 239999999999999997600 ∧
    unstake cs10 4600 10 7 (10 ^ 18) = .ok (c1s, 239999999999999997600) ∧
    (c1s.userStakes 10 7).amount = 0 ∧
    (c1s.userStakes 10 7).pendingRewards = 0 ∧
    c1s.userRewardBal 10 = 239999999999999997600 ∧
    claimRewards c1s 4600 10 7 = .error Err.noRewards :=
  ⟨reachable_cs10, rfl, rfl, rfl, rfl, rfl, rfl⟩

/-- C3 counterexample: a reachable state (weights of the only pool updated to
zero by an executed UPDATE_PAIR_WEIGHTS while 10^18 LP units remain staked)
in which the reward-index update divides by `totalWeight = 0` and thereby
aborts the entire enclosing `claimRewards` call, contradicting the claim
that the `totalWeight == 0` case "fails or saturates to zero rather than
aborting the whole operation" and that the update "performs no division by
zero". -/
theorem c3_division_by_zero_reachable :
    Reachable 2000 cs14 ∧
    (cs14.pairs 7).isActive = true ∧
    cs14.lpBal 7 = 10 ^ 18 ∧
    cs14.totalWeight = 0 ∧
    updateRewardPerToken cs14 3000 7 = .error Err.divisionByZero ∧
    claimRewards cs14 3000 10 7 = .error Err.divisionByZero :=
  ⟨reachable_cs14, rfl, rfl, rfl, rfl, rfl⟩

/-- C3 (amended): whenever `updateRewardPerToken` completes, it advances
`lastUpdateTime` to `now` and increases `rewardPerTokenStored` by exactly
`(ratePerSecond * elapsed * poolWeight / totalWeight) * PRECISION / supply`
(zero when the pool's staked supply or the elapsed time is zero); when
`totalWeight = 0` while the supply and the elapsed time are positive, the
update aborts the whole operation with a division-by-zero error instead of
completing. -/
theorem c3_reward_index_update (s : State) (now lp : Nat) :
    (∀ s1, updateRewardPerToken s now lp = .ok s1 →
      s1.lastUpdateTime lp = now ∧
      s1.rewardPerTokenStored lp = s.rewardPerTokenStored lp +
        (if 0 < s.lpBal lp ∧ 0 < now - s.lastUpdateTime lp then
          s.hourlyRewardRate / SECONDS_PER_HOUR * (now - s.lastUpdateTime lp) *
            (s.pairs lp).weight / s.totalWeight * PRECISION / s.lpBal lp
        else 0)) ∧
    (0 < s.lpBal lp → 0 < now - s.lastUpdateTime lp → s.totalWeight = 0 →
      updateRewardPerToken s now lp = .error Err.divisionByZero) := by
  constructor
  · intro s1 h
    rcases updateRewardPerToken_cases h with ⟨hb, hd, htw, rfl⟩ | ⟨hn, rfl⟩
    · refine ⟨updFn_apply_same _ _ _, ?_⟩
      dsimp only
      rw [updFn_apply_same, if_pos ⟨hb, hd⟩]
    · refine ⟨updFn_apply_same _ _ _, ?_⟩
      dsimp only
      rw [if_neg hn]
      omega
  · intro hb hd htw
    unfold updateRewardPerToken
    rw [if_pos ⟨hb, hd⟩, if_pos htw]

/-- Witness for `c3_reward_index_update`: concrete instantiations of both
conjuncts, on the reachable states `cs10` (normal accrual over one hour) and
`cs14` (zero total weight with positive staked supply). -/
theorem c3_reward_index_update_witness :
    (okS (updateRewardPerToken cs10 4600 7)).rewardPerTokenStored 7 =
      239999999999999997600 ∧
    updateRewardPerToken cs14 3000 7 = .error Err.divisionByZero := by
  constructor
  · have h := (c3_reward_index_update cs10 4600 7).1
      (okS (updateRewardPerToken cs10 4600 7)) rfl
    rw [h.2]
    decide
  · exact (c3_reward_index_update cs14 3000 7).2 (by decide) (by decide) rfl

theorem approveActionInternal_ok {s : State} {now id sd : Nat} {s' : State}
    (h : approveActionInternal s now id sd = .ok s') :
    (s.actions id).executed = false ∧ (s.actions id).expired = false ∧
    ¬ ((s.actions id).proposedTime + ACTION_EXPIRY < now) ∧
    sd ∉ (s.actions id).approvedBy ∧
    s' = { s with
            actions := updFn s.actions id
              { s.actions id with
                  approvedBy := (s.actions id).approvedBy ++ [sd]
                  approvals := (s.actions id).approvals + 1 } } := by
  unfold approveActionInternal at h
  by_cases h1 : (s.actions id).executed
  · rw [if_pos h1] at h; simp at h
  · rw [if_neg h1] at h
    by_cases h2 : (s.actions id).expired
    · rw [if_pos h2] at h; simp at h
    · rw [if_neg h2] at h
      by_cases h3 : (s.actions id).proposedTime + ACTION_EXPIRY < now
      · rw [if_pos h3] at h; simp at h
      · rw [if_neg h3] at h
        by_cases h4 : sd ∈ (s.actions id).approvedBy
        · rw [if_pos h4] at h; simp at h
        · rw [if_neg h4] at h
          injection h with h
          exact ⟨Bool.eq_false_iff.mpr h1, Bool.eq_false_iff.mpr h2, h3, h4, h.symm⟩

theorem approveAction_ok {s : State} {now id sd : Nat} {s' : State}
    (h : approveAction s now id sd = .ok s') :
    s.isAdmin sd = true ∧ 0 < id ∧ id ≤ s.actionCounter ∧
    approveActionInternal s now id sd = .ok s' := by
  unfold approveAction at h
  by_cases h1 : s.isAdmin sd
  · rw [if_neg (by simp [h1])] at h
    by_cases h2 : 0 < id ∧ id ≤ s.actionCounter
    · rw [if_neg (by simp [h2.1, h2.2])] at h
      exact ⟨h1, h2.1, h2.2, h⟩
    · rw [if_pos h2] at h; simp at h
  · rw [if_pos (by simp [h1])] at h; simp at h

theorem stake_ok {s : State} {now u lp amt : Nat} {s' : State}
    (h : stake s now u lp amt = .ok s') :
    (s.pairs lp).isActive = true ∧ (s.pairs lp).weight ≠ 0 ∧
    MIN_STAKE ≤ amt ∧
    ∃ s1 pend, updateRewardPerToken s now lp = .ok s1 ∧
      s' = { s1 with
              userStakes := updFn2 s1.userStakes u lp
                { amount := (s1.userStakes u lp).amount + amt
                  lastRewardTime := now
                  pendingRewards := pend
                  rewardPerTokenPaid := s1.rewardPerTokenStored lp }
              userLpBal := updFn2 s1.userLpBal u lp (s1.userLpBal u lp - amt)
              lpBal := updFn s1.lpBal lp (s1.lpBal lp + amt) } := by
  unfold stake at h
  by_cases h1 : (s.pairs lp).isActive
  · rw [if_neg (by simp [h1])] at h
    by_cases h2 : (s.pairs lp).weight = 0
    · rw [if_pos h2] at h; simp at h
    · rw [if_neg h2] at h
      by_cases h3 : amt < MIN_STAKE
      · rw [if_pos h3] at h; simp at h
      · rw [if_neg h3] at h
        by_cases h4 : UINT128_MAX < amt
        · rw [if_pos h4] at h; simp at h
        · rw [if_neg h4] at h
          refine ⟨h1, h2, by omega, ?_⟩
          cases hu : updateRewardPerToken s now lp with
          | error e => rw [hu] at h; dsimp only at h; simp at h
          | ok s1 =>
            rw [hu] at h
            dsimp only at h
            cases hp : (if 0 < (s1.userStakes u lp).amount then earned s1 now u lp
                else .ok (s1.userStakes u lp).pendingRewards) with
            | error e => rw [hp] at h; dsimp only at h; simp at h
            | ok pend =>
              rw [hp] at h
              dsimp only at h
              by_cases h5 : s1.userLpBal u lp < amt
              · rw [if_pos h5] at h; simp at h
              · rw [if_neg h5] at h
                injection h with h
                exact ⟨s1, pend, rfl, h.symm⟩
  · rw [if_pos (by simp [h1])] at h; simp at h

theorem unstake_ok {s : State} {now u lp amt : Nat} {s' : State} {paid : Nat}
    (h : unstake s now u lp amt = .ok (s', paid)) :
    (s.pairs lp).isActive = true ∧ amt ≤ (s.userStakes u lp).amount ∧
    ∃ s1 rewards, updateRewardPerToken s now lp = .ok s1 ∧
      earned s1 now u lp = .ok rewards ∧
      ((amt = (s1.userStakes u lp).amount ∧ paid = rewards ∧
        s' = { s1 with
                userStakes := updFn2 s1.userStakes u lp
                  { amount := 0
                    lastRewardTime := (s1.userStakes u lp).lastRewardTime
                    pendingRewards := 0
                    rewardPerTokenPaid := s1.rewardPerTokenStored lp }
                lpBal := updFn s1.lpBal lp (s1.lpBal lp - amt)
                userLpBal := updFn2 s1.userLpBal u lp (s1.userLpBal u lp + amt)
                rewardBal := s1.rewardBal - rewards
                userRewardBal := updFn s1.userRewardBal u
                  (s1.userRewardBal u + rewards) }) ∨
       (amt ≠ (s1.userStakes u lp).amount ∧ paid = 0 ∧
        s' = { s1 with
                userStakes := updFn2 s1.userStakes u lp
                  { amount := (s1.userStakes u lp).amount - amt
                    lastRewardTime := (s1.userStakes u lp).lastRewardTime
                    pendingRewards := 0
                    rewardPerTokenPaid := s1.rewardPerTokenStored lp }
                lpBal := updFn s1.lpBal lp (s1.lpBal lp - amt)
                userLpBal := updFn2 s1.userLpBal u lp (s1.userLpBal u lp + amt) })) := by
  unfold unstake at h
  by_cases h1 : (s.pairs lp).isActive
  · rw [if_neg (by simp [h1])] at h
    by_cases h2 : (s.userStakes u lp).amount < amt
    · rw [if_pos h2] at h; simp at h
    · rw [if_neg h2] at h
      refine ⟨h1, by omega, ?_⟩
      cases hu : updateRewardPerToken s now lp with
      | error e => rw [hu] at h; dsimp only at h; simp at h
      | ok s1 =>
        rw [hu] at h
        dsimp only at h
        cases he : earned s1 now u lp with
        | error e => rw [he] at h; dsimp only at h; simp at h
        | ok rewards =>
          rw [he] at h
          dsimp only at h
          by_cases h3 : amt = (s1.userStakes u lp).amount
          · rw [if_pos h3] at h
            by_cases h4 : s1.lpBal lp < amt
            · rw [if_pos h4] at h; simp at h
            · rw [if_neg h4] at h
              by_cases h5 : 0 < rewards ∧ s1.rewardBal < rewards
              · rw [if_pos h5] at h; simp at h
              · rw [if_neg h5] at h
                injection h with h
                injection h with ha hb
                exact ⟨s1, rewards, rfl, he, Or.inl ⟨h3, hb.symm, ha.symm⟩⟩
          · rw [if_neg h3] at h
            by_cases h4 : s1.lpBal lp < amt
            · rw [if_pos h4] at h; simp at h
            · rw [if_neg h4] at h
              injection h with h
              injection h with ha hb
              exact ⟨s1, rewards, rfl, he, Or.inr ⟨h3, hb.symm, ha.symm⟩⟩
  · rw [if_pos (by simp [h1])] at h; simp at h

theorem proposeSetHourlyRewardRate_ok {s : State} {now sd rate : Nat}
    {s' : State} {cid : Nat}
    (h : proposeSetHourlyRewardRate s now sd rate = .ok (s', cid)) :
    s.isAdmin sd = true ∧ cid = s.actionCounter + 1 ∧
    s'.actionCounter = s.actionCounter + 1 ∧
    (∀ j, j ≠ s.actionCounter + 1 → s'.actions j = s.actions j) ∧
    s'.actions (s.actionCounter + 1) =
      { s.actions (s.actionCounter + 1) with
          actionType := ActionType.SET_HOURLY_REWARD_RATE
          newHourlyRewardRate := rate
          proposedTime := now
          approvedBy := (s.actions (s.actionCounter + 1)).approvedBy ++ [sd]
          approvals := (s.actions (s.actionCounter + 1)).approvals + 1 } ∧
    s'.pairs = s.pairs ∧ s'.activePairs = s.activePairs ∧
    s'.totalWeight = s.totalWeight ∧ s'.isAdmin = s.isAdmin ∧
    s'.signers = s.signers ∧ s'.hourlyRewardRate = s.hourlyRewardRate ∧
    s'.userStakes = s.userStakes ∧ s'.lpBal = s.lpBal ∧
    s'.rewardPerTokenStored = s.rewardPerTokenStored ∧
    s'.lastUpdateTime = s.lastUpdateTime ∧ s'.rewardBal = s.rewardBal := by
  unfold proposeSetHourlyRewardRate at h
  by_cases h1 : s.isAdmin sd
  · rw [if_neg (by simp [h1])] at h
    by_cases h2 : UINT128_MAX < rate
    · rw [if_pos h2] at h; simp at h
    · rw [if_neg h2] at h
      dsimp only at h
      split at h
      · simp at h
      · rename_i s2 ha
        injection h with h
        injection h with ha2 hb2
        obtain ⟨he1, he2, he3, he4, rfl⟩ := approveActionInternal_ok ha
        subst ha2
        subst hb2
        refine ⟨h1, rfl, rfl, ?_, ?_, rfl, rfl, rfl, rfl, rfl, rfl, rfl, rfl, rfl,
          rfl, rfl⟩
        · intro j hj
          dsimp only
          rw [updFn_apply_ne _ _ hj, updFn_apply_ne _ _ hj]
        · dsimp only
          rw [updFn_apply_same, updFn_apply_same]
  · rw [if_pos (by simp [h1])] at h; simp at h

theorem proposeWithdrawRewards_ok {s : State} {now sd rcpt amt : Nat}
    {s' : State} {cid : Nat}
    (h : proposeWithdrawRewards s now sd rcpt amt = .ok (s', cid)) :
    s.isAdmin sd = true ∧ cid = s.actionCounter + 1 ∧
    s'.actionCounter = s.actionCounter + 1 ∧
    (∀ j, j ≠ s.actionCounter + 1 → s'.actions j = s.actions j) ∧
    s'.actions (s.actionCounter + 1) =
      { s.actions (s.actionCounter + 1) with
          actionType := ActionType.WITHDRAW_REWARDS
          recipient := rcpt
          withdrawAmount := amt
          proposedTime := now
          approvedBy := (s.actions (s.actionCounter + 1)).approvedBy ++ [sd]
          approvals := (s.actions (s.actionCounter + 1)).approvals + 1 } ∧
    s'.pairs = s.pairs ∧ s'.activePairs = s.activePairs ∧
    s'.totalWeight = s.totalWeight ∧ s'.isAdmin = s.isAdmin ∧
    s'.signers = s.signers ∧ s'.hourlyRewardRate = s.hourlyRewardRate ∧
    s'.userStakes = s.userStakes ∧ s'.lpBal = s.lpBal ∧
    s'.rewardPerTokenStored = s.rewardPerTokenStored ∧
    s'.lastUpdateTime = s.lastUpdateTime ∧ s'.rewardBal = s.rewardBal := by
  unfold proposeWithdrawRewards at h
  by_cases h1 : s.isAdmin sd
  · rw [if_neg (by simp [h1])] at h
    by_cases h2 : rcpt = 0
    · rw [if_pos h2] at h; simp at h
    · rw [if_neg h2] at h
      by_cases h3 : amt = 0
      · rw [if_pos h3] at h; simp at h
      · rw [if_neg h3] at h
        by_cases h4 : s.rewardBal < amt
        · rw [if_pos h4] at h; simp at h
        · rw [if_neg h4] at h
          by_cases h5 : UINT128_MAX < amt
          · rw [if_pos h5] at h; simp at h
          · rw [if_neg h5] at h
            dsimp only at h
            split at h
            · simp at h
            · rename_i s2 ha
              injection h with h
              injection h with ha2 hb2
              obtain ⟨he1, he2, he3, he4, rfl⟩ := approveActionInternal_ok ha
              subst ha2
              subst hb2
              refine ⟨h1, rfl, rfl, ?_, ?_, rfl, rfl, rfl, rfl, rfl, rfl, rfl,
                rfl, rfl, rfl, rfl⟩
              · intro j hj
                dsimp only
                rw [updFn_apply_ne _ _ hj, updFn_apply_ne _ _ hj]
              · dsimp only
                rw [updFn_apply_same, updFn_apply_same]
  · rw [if_pos (by simp [h1])] at h; simp at h

theorem proposeUpdatePairWeights_ok {s : State} {now sd : Nat}
    {lpTokens ws : List Nat} {s' : State} {cid : Nat}
    (h : proposeUpdatePairWeights s now sd lpTokens ws = .ok (s', cid)) :
    s.isAdmin sd = true ∧ cid = s.actionCounter + 1 ∧
    s'.actionCounter = s.actionCounter + 1 ∧
    (∀ j, j ≠ s.actionCounter + 1 → s'.actions j = s.actions j) ∧
    s'.actions (s.actionCounter + 1) =
      { s.actions (s.actionCounter + 1) with
          actionType := ActionType.UPDATE_PAIR_WEIGHTS
          pairs := lpTokens
          weights := ws
          proposedTime := now
          approvedBy := (s.actions (s.actionCounter + 1)).approvedBy ++ [sd]
          approvals := (s.actions (s.actionCounter + 1)).approvals + 1 } ∧
    s'.pairs = s.pairs ∧ s'.activePairs = s.activePairs ∧
    s'.totalWeight = s.totalWeight ∧ s'.isAdmin = s.isAdmin ∧
    s'.signers = s.signers ∧ s'.hourlyRewardRate = s.hourlyRewardRate ∧
    s'.userStakes = s.userStakes ∧ s'.lpBal = s.lpBal ∧
    s'.rewardPerTokenStored = s.rewardPerTokenStored ∧
    s'.lastUpdateTime = s.lastUpdateTime ∧ s'.rewardBal = s.rewardBal := by
  unfold proposeUpdatePairWeights at h
  by_cases h1 : s.isAdmin sd
  · rw [if_neg (by simp [h1])] at h
    by_cases h2 : lpTokens.length ≠ ws.length
    · rw [if_pos h2] at h; simp at h
    · rw [if_neg h2] at h
      by_cases h3 : lpTokens.length = 0
      · rw [if_pos h3] at h; simp at h
      · rw [if_neg h3] at h
        by_cases h4 : MAX_PAIRS < lpTokens.length
        · rw [if_pos h4] at h; simp at h
        · rw [if_neg h4] at h
          by_cases h5 : ¬ (ws.all (fun w => w ≤ MAX_WEIGHT))
          · rw [if_pos h5] at h; simp at h
          · rw [if_neg h5] at h
            by_cases h6 : ¬ (lpTokens.all (fun a => a ≠ 0))
            · rw [if_pos h6] at h; simp at h
            · rw [if_neg h6] at h
              dsimp only at h
              split at h
              · simp at h
              · rename_i s2 ha
                injection h with h
                injection h with ha2 hb2
                obtain ⟨he1, he2, he3, he4, rfl⟩ := approveActionInternal_ok ha
                subst ha2
                subst hb2
                refine ⟨h1, rfl, rfl, ?_, ?_, rfl, rfl, rfl, rfl, rfl, rfl, rfl,
                  rfl, rfl, rfl, rfl⟩
                · intro j hj
                  dsimp only
                  rw [updFn_apply_ne _ _ hj, updFn_apply_ne _ _ hj]
                · dsimp only
                  rw [updFn_apply_same, updFn_apply_same]
  · rw [if_pos (by simp [h1])] at h; simp at h

theorem proposeAddPair_ok {s : State} {now sd lp : Nat} {nm pf : String}
    {w : Nat} {s' : State} {cid : Nat}
    (h : proposeAddPair s now sd lp nm pf w = .ok (s', cid)) :
    s.isAdmin sd = true ∧ lp ≠ 0 ∧ w ≠ 0 ∧ w ≤ MAX_WEIGHT ∧
    cid = s.actionCounter + 1 ∧
    s'.actionCounter = s.actionCounter + 1 ∧
    (∀ j, j ≠ s.actionCounter + 1 → s'.actions j = s.actions j) ∧
    s'.actions (s.actionCounter + 1) =
      { s.actions (s.actionCounter + 1) with
          actionType := ActionType.ADD_PAIR
          pairToAdd := lp
          pairNameToAdd := nm
          platformToAdd := pf
          weightToAdd := w
          proposedTime := now
          approvedBy := (s.actions (s.actionCounter + 1)).approvedBy ++ [sd]
          approvals := (s.actions (s.actionCounter + 1)).approvals + 1 } ∧
    s'.pairs = s.pairs ∧ s'.activePairs = s.activePairs ∧
    s'.totalWeight = s.totalWeight ∧ s'.isAdmin = s.isAdmin ∧
    s'.signers = s.signers ∧ s'.hourlyRewardRate = s.hourlyRewardRate ∧
    s'.userStakes = s.userStakes ∧ s'.lpBal = s.lpBal ∧
    s'.rewardPerTokenStored = s.rewardPerTokenStored ∧
    s'.lastUpdateTime = s.lastUpdateTime ∧ s'.rewardBal = s.rewardBal := by
  unfold proposeAddPair at h
  by_cases h1 : s.isAdmin sd
  · rw [if_neg (by simp [h1])] at h
    by_cases h2 : lp = 0
    · rw [if_pos h2] at h; simp at h
    · rw [if_neg h2] at h
      by_cases h3 : w = 0
      · rw [if_pos h3] at h; simp at h
      · rw [if_neg h3] at h
        by_cases h4 : MAX_WEIGHT < w
        · rw [if_pos h4] at h; simp at h
        · rw [if_neg h4] at h
          by_cases h5 : nm.length = 0
          · rw [if_pos h5] at h; simp at h
          · rw [if_neg h5] at h
            by_cases h6 : 32 < nm.length
            · rw [if_pos h6] at h; simp at h
            · rw [if_neg h6] at h
              by_cases h7 : pf.length = 0
              · rw [if_pos h7] at h; simp at h
              · rw [if_neg h7] at h
                by_cases h8 : 32 < pf.length
                · rw [if_pos h8] at h; simp at h
                · rw [if_neg h8] at h
                  dsimp only at h
                  split at h
                  · simp at h
                  · rename_i s2 ha
                    injection h with h
                    injection h with ha2 hb2
                    obtain ⟨he1, he2, he3, he4, rfl⟩ := approveActionInternal_ok ha
                    subst ha2
                    subst hb2
                    refine ⟨h1, h2, h3, by omega, rfl, rfl, ?_, ?_, rfl, rfl, rfl,
                      rfl, rfl, rfl, rfl, rfl, rfl, rfl, rfl⟩
                    · intro j hj
                      dsimp only
                      rw [updFn_apply_ne _ _ hj, updFn_apply_ne _ _ hj]
                    · dsimp only
                      rw [updFn_apply_same, updFn_apply_same]
  · rw [if_pos (by simp [h1])] at h; simp at h

theorem proposeRemovePair_ok {s : State} {now sd lp : Nat} {s' : State} {cid : Nat}
    (h : proposeRemovePair s now sd lp = .ok (s', cid)) :
    s.isAdmin sd = true ∧ lp ≠ 0 ∧ (s.pairs lp).isActive = true ∧
    cid = s.actionCounter + 1 ∧
    s'.actionCounter = s.actionCounter + 1 ∧
    (∀ j, j ≠ s.actionCounter + 1 → s'.actions j = s.actions j) ∧
    s'.actions (s.actionCounter + 1) =
      { s.actions (s.actionCounter + 1) with
          actionType := ActionType.REMOVE_PAIR
          pairToRemove := lp
          proposedTime := now
          approvedBy := (s.actions (s.actionCounter + 1)).approvedBy ++ [sd]
          approvals := (s.actions (s.actionCounter + 1)).approvals + 1 } ∧
    s'.pairs = s.pairs ∧ s'.activePairs = s.activePairs ∧
    s'.totalWeight = s.totalWeight ∧ s'.isAdmin = s.isAdmin ∧
    s'.signers = s.signers ∧ s'.hourlyRewardRate = s.hourlyRewardRate ∧
    s'.userStakes = s.userStakes ∧ s'.lpBal = s.lpBal ∧
    s'.rewardPerTokenStored = s.rewardPerTokenStored ∧
    s'.lastUpdateTime = s.lastUpdateTime ∧ s'.rewardBal = s.rewardBal := by
  unfold proposeRemovePair at h
  by_cases h1 : s.isAdmin sd
  · rw [if_neg (by simp [h1])] at h
    by_cases h2 : lp = 0
    · rw [if_pos h2] at h; simp at h
    · rw [if_neg h2] at h
      by_cases h3 : (s.pairs lp).isActive
      · rw [if_neg (by simp [h3])] at h
        dsimp only at h
        split at h
        · simp at h
        · rename_i s2 ha
          injection h with h
          injection h with ha2 hb2
          obtain ⟨he1, he2, he3, he4, rfl⟩ := approveActionInternal_ok ha
          subst ha2
          subst hb2
          refine ⟨h1, h2, h3, rfl, rfl, ?_, ?_, rfl, rfl, rfl, rfl, rfl, rfl,
            rfl, rfl, rfl, rfl, rfl⟩
          · intro j hj
            dsimp only
            rw [updFn_apply_ne _ _ hj, updFn_apply_ne _ _ hj]
          · dsimp only
            rw [updFn_apply_same, updFn_apply_same]
      · rw [if_pos (by simp [h3])] at h; simp at h
  · rw [if_pos (by simp [h1])] at h; simp at h

theorem proposeChangeSigner_ok {s : State} {now sd oldS newS : Nat}
    {s' : State} {cid : Nat}
    (h : proposeChangeSigner s now sd oldS newS = .ok (s', cid)) :
    s.isAdmin sd = true ∧ s.isAdmin oldS = true ∧ s.isAdmin newS = false ∧
    newS ≠ 0 ∧ cid = s.actionCounter + 1 ∧
    s'.actionCounter = s.actionCounter + 1 ∧
    (∀ j, j ≠ s.actionCounter + 1 → s'.actions j = s.actions j) ∧
    s'.actions (s.actionCounter + 1) =
      { s.actions (s.actionCounter + 1) with
          actionType := ActionType.CHANGE_SIGNER
          pairToAdd := oldS
          pairToRemove := newS
          proposedTime := now
          approvedBy := (s.actions (s.actionCounter + 1)).approvedBy ++ [sd]
          approvals := (s.actions (s.actionCounter + 1)).approvals + 1 } ∧
    s'.pairs = s.pairs ∧ s'.activePairs = s.activePairs ∧
    s'.totalWeight = s.totalWeight ∧ s'.isAdmin = s.isAdmin ∧
    s'.signers = s.signers ∧ s'.hourlyRewardRate = s.hourlyRewardRate ∧
    s'.userStakes = s.userStakes ∧ s'.lpBal = s.lpBal ∧
    s'.rewardPerTokenStored = s.rewardPerTokenStored ∧
    s'.lastUpdateTime = s.lastUpdateTime ∧ s'.rewardBal = s.rewardBal := by
  unfold proposeChangeSigner at h
  by_cases h1 : s.isAdmin sd
  · rw [if_neg (by simp [h1])] at h
    by_cases h2 : s.isAdmin oldS
    · rw [if_neg (by simp [h2])] at h
      by_cases h3 : s.isAdmin newS
      · rw [if_pos (by simp [h3])] at h; simp at h
      · rw [if_neg (by simp [h3])] at h
        by_cases h4 : newS = 0
        · rw [if_pos h4] at h; simp at h
        · rw [if_neg h4] at h
          dsimp only at h
          split at h
          · simp at h
          · rename_i s2 ha
            injection h with h
            injection h with ha2 hb2
            obtain ⟨he1, he2, he3, he4, rfl⟩ := approveActionInternal_ok ha
            subst ha2
            subst hb2
            refine ⟨h1, h2, by simp [h3], h4, rfl, rfl, ?_, ?_, rfl, rfl, rfl,
              rfl, rfl, rfl, rfl, rfl, rfl, rfl, rfl⟩
            · intro j hj
              dsimp only
              rw [updFn_apply_ne _ _ hj, updFn_apply_ne _ _ hj]
            · dsimp only
              rw [updFn_apply_same, updFn_apply_same]
    · rw [if_pos (by simp [h2])] at h; simp at h
  · rw [if_pos (by simp [h1])] at h; simp at h

theorem handleExpiredAction_ok {s : State} {now id sd : Nat} {s' : State}
    (h : handleExpiredAction s now id sd = .ok s') :
    s.isAdmin sd = true ∧ 0 < id ∧ id ≤ s.actionCounter ∧
    (s.actions id).executed = false ∧ (s.actions id).expired = false ∧
    s' = { s with
            actions := updFn s.actions id { s.actions id with expired := true } } := by
  unfold handleExpiredAction at h
  by_cases h1 : s.isAdmin sd
  · rw [if_neg (by simp [h1])] at h
    by_cases h2 : 0 < id ∧ id ≤ s.actionCounter
    · rw [if_neg (by simp [h2.1, h2.2])] at h
      by_cases h3 : (s.actions id).executed
      · rw [if_pos h3] at h; simp at h
      · rw [if_neg h3] at h
        by_cases h4 : (s.actions id).expired
        · rw [if_pos h4] at h; simp at h
        · rw [if_neg h4] at h
          by_cases h5 : isActionExpired s now id
          · rw [if_neg (by simp [h5])] at h
            injection h with h
            exact ⟨h1, h2.1, h2.2, Bool.eq_false_iff.mpr h3,
              Bool.eq_false_iff.mpr h4, h.symm⟩
          · rw [if_pos (by simp [h5])] at h; simp at h
    · rw [if_pos h2] at h; simp at h
  · rw [if_pos (by simp [h1])] at h; simp at h

theorem cleanupLoop_eq_or (now : Nat) (acts : Nat → PendingAction) :
    ∀ (n j : Nat), cleanupLoop now acts n j = acts j ∨
      cleanupLoop now acts n j = { acts j with expired := true } := by
  intro n
  induction n with
  | zero => intro j; exact Or.inl rfl
  | succ i ih =>
    intro j
    unfold cleanupLoop
    dsimp only
    split
    · rename_i hcond
      by_cases hj : j = i + 1
      · subst hj
        rw [updFn_apply_same]
        rcases ih (i + 1) with h | h
        · rw [h]
          exact Or.inr rfl
        · rw [h]
          exact Or.inr rfl
      · rw [updFn_apply_ne _ _ hj]
        exact ih j
    · exact ih j

theorem cleanupExpiredActions_ok {s : State} {now sd : Nat} {s' : State}
    (h : cleanupExpiredActions s now sd = .ok s') :
    s.isAdmin sd = true ∧
    s' = { s with actions := cleanupLoop now s.actions s.actionCounter } := by
  unfold cleanupExpiredActions at h
  by_cases h1 : s.isAdmin sd
  · rw [if_neg (by simp [h1])] at h
    injection h with h
    exact ⟨h1, h.symm⟩
  · rw [if_pos (by simp [h1])] at h; simp at h

theorem update_frame {s : State} {now lp : Nat} {s1 : State}
    (h : updateRewardPerToken s now lp = .ok s1) :
    s1.actions = s.actions ∧ s1.actionCounter = s.actionCounter ∧
    s1.pairs = s.pairs ∧ s1.activePairs = s.activePairs ∧
    s1.totalWeight = s.totalWeight ∧ s1.isAdmin = s.isAdmin ∧
    s1.signers = s.signers ∧ s1.userStakes = s.userStakes ∧
    s1.lpBal = s.lpBal ∧ s1.userLpBal = s.userLpBal ∧
    s1.rewardBal = s.rewardBal ∧ s1.userRewardBal = s.userRewardBal ∧
    s1.hourlyRewardRate = s.hourlyRewardRate := by
  rcases updateRewardPerToken_cases h with ⟨_, _, _, rfl⟩ | ⟨_, rfl⟩ <;>
    exact ⟨rfl, rfl, rfl, rfl, rfl, rfl, rfl, rfl, rfl, rfl, rfl, rfl, rfl⟩

theorem updateAllRewardsLoop_frame {now : Nat} :
    ∀ {l : List Nat} {s s' : State}, updateAllRewardsLoop now l s = .ok s' →
    s'.actions = s.actions ∧ s'.actionCounter = s.actionCounter ∧
    s'.pairs = s.pairs ∧ s'.activePairs = s.activePairs ∧
    s'.totalWeight = s.totalWeight ∧ s'.isAdmin = s.isAdmin ∧
    s'.signers = s.signers ∧ s'.userStakes = s.userStakes ∧
    s'.lpBal = s.lpBal ∧ s'.userLpBal = s.userLpBal ∧
    s'.rewardBal = s.rewardBal ∧ s'.userRewardBal = s.userRewardBal ∧
    s'.hourlyRewardRate = s.hourlyRewardRate := by
  intro l
  induction l with
  | nil =>
    intro s s' h
    unfold updateAllRewardsLoop at h
    injection h with h
    subst h
    exact ⟨rfl, rfl, rfl, rfl, rfl, rfl, rfl, rfl, rfl, rfl, rfl, rfl, rfl⟩
  | cons lp rest ih =>
    intro s s' h
    unfold updateAllRewardsLoop at h
    cases hu : updateRewardPerToken s now lp with
    | error e => rw [hu] at h; simp at h
    | ok s1 =>
      rw [hu] at h
      dsimp only at h
      obtain ⟨a1, a2, a3, a4, a5, a6, a7, a8, a9, a10, a11, a12, a13⟩ := ih h
      obtain ⟨b1, b2, b3, b4, b5, b6, b7, b8, b9, b10, b11, b12, b13⟩ := update_frame hu
      exact ⟨a1.trans b1, a2.trans b2, a3.trans b3, a4.trans b4, a5.trans b5,
        a6.trans b6, a7.trans b7, a8.trans b8, a9.trans b9, a10.trans b10,
        a11.trans b11, a12.trans b12, a13.trans b13⟩

theorem setPairWeights_fields :
    ∀ {ps ws : List Nat} {pm pm' : Nat → LiquidityPair},
    setPairWeights ps ws pm = .ok pm' →
    ∀ p, (pm' p).isActive = (pm p).isActive ∧ (pm' p).lpToken = (pm p).lpToken ∧
      (pm' p).pairName = (pm p).pairName ∧ (pm' p).platform = (pm p).platform := by
  intro ps
  induction ps with
  | nil =>
    intro ws pm pm' h p
    unfold setPairWeights at h
    injection h with h
    subst h
    exact ⟨rfl, rfl, rfl, rfl⟩
  | cons q pr ih =>
    intro ws pm pm' h p
    cases ws with
    | nil => unfold setPairWeights at h; simp at h
    | cons w wr =>
      unfold setPairWeights at h
      by_cases hq : (pm q).lpToken = 0
      · rw [if_pos hq] at h; simp at h
      · rw [if_neg hq] at h
        obtain ⟨c1, c2, c3, c4⟩ := ih h p
        by_cases hp : p = q
        · subst hp
          rw [c1, c2, c3, c4, updFn_apply_same]
          exact ⟨rfl, rfl, rfl, rfl⟩
        · rw [c1, c2, c3, c4, updFn_apply_ne _ _ hp]
          exact ⟨rfl, rfl, rfl, rfl⟩

theorem executeAction_ok {s : State} {now id sd : Nat} {s' : State}
    (h : executeAction s now id sd = .ok s') :
    s.isAdmin sd = true ∧ 0 < id ∧ id ≤ s.actionCounter ∧
    (s.actions id).executed = false ∧ (s.actions id).expired = false ∧
    REQUIRED_APPROVALS ≤ (s.actions id).approvals ∧
    ¬ ((s.actions id).proposedTime + ACTION_EXPIRY < now) ∧
    ∃ s1, execDispatch s now (s.actions id) = .ok s1 ∧
      s' = { s1 with
              actions := updFn s1.actions id { s1.actions id with executed := true } } := by
  unfold executeAction at h
  by_cases h1 : s.isAdmin sd
  · rw [if_neg (by simp [h1])] at h
    by_cases h2 : 0 < id ∧ id ≤ s.actionCounter
    · rw [if_neg (by simp [h2.1, h2.2])] at h
      dsimp only at h
      by_cases h3 : (s.actions id).executed
      · rw [if_pos h3] at h; simp at h
      · rw [if_neg h3] at h
        by_cases h4 : (s.actions id).expired
        · rw [if_pos h4] at h; simp at h
        · rw [if_neg h4] at h
          by_cases h5 : (s.actions id).approvals < REQUIRED_APPROVALS
          · rw [if_pos h5] at h; simp at h
          · rw [if_neg h5] at h
            by_cases h6 : (s.actions id).proposedTime + ACTION_EXPIRY < now
            · rw [if_pos h6] at h; simp at h
            · rw [if_neg h6] at h
              cases hd : execDispatch s now (s.actions id) with
              | error e => rw [hd] at h; simp at h
              | ok s1 =>
                rw [hd] at h
                dsimp only at h
                injection h with h
                exact ⟨h1, h2.1, h2.2, Bool.eq_false_iff.mpr h3,
                  Bool.eq_false_iff.mpr h4, by omega, h6, s1, rfl, h.symm⟩
    · rw [if_pos h2] at h; simp at h
  · rw [if_pos (by simp [h1])] at h; simp at h

theorem execDispatch_actions {s : State} {now : Nat} {pa : PendingAction} {s1 : State}
    (h : execDispatch s now pa = .ok s1) :
    s1.actions = s.actions ∧ s1.actionCounter = s.actionCounter := by
  unfold execDispatch at h
  split at h
  · split at h
    · simp at h
    · rename_i sU hU
      injection h with h
      subst h
      obtain ⟨a1, a2, -⟩ := updateAllRewardsLoop_frame hU
      exact ⟨a1, a2⟩
  · split at h
    · simp at h
    · rename_i sU hU
      split at h
      · simp at h
      · rename_i pm hpm
        injection h with h
        subst h
        obtain ⟨a1, a2, -⟩ := updateAllRewardsLoop_frame hU
        exact ⟨a1, a2⟩
  · split_ifs at h
    injection h with h
    subst h
    exact ⟨rfl, rfl⟩
  · dsimp only at h
    split_ifs at h
    injection h with h
    subst h
    exact ⟨rfl, rfl⟩
  · dsimp only at h
    injection h with h
    subst h
    exact ⟨rfl, rfl⟩
  · split_ifs at h
    injection h with h
    subst h
    exact ⟨rfl, rfl⟩

theorem c4_step {t2 : Nat} {a : Act} {s s' : State} {id : Nat}
    (happ : applyAct t2 a s = .ok s')
    (hle : id ≤ s.actionCounter)
    (hex : (s.actions id).executed = false)
    (hexp : (s.actions id).proposedTime + ACTION_EXPIRY < t2) :
    id ≤ s'.actionCounter ∧
    (s'.actions id).proposedTime = (s.actions id).proposedTime ∧
    (s'.actions id).executed = false := by
  cases a with
  | stakeA u lp amt =>
    obtain ⟨-, -, -, s1, pend, hu, rfl⟩ := stake_ok happ
    obtain ⟨a1, a2, -⟩ := update_frame hu
    dsimp only
    rw [a1, a2]
    exact ⟨hle, rfl, hex⟩
  | unstakeA u lp amt =>
    simp only [applyAct] at happ
    cases hres : unstake s t2 u lp amt with
    | error e => rw [hres] at happ; simp [Except.map] at happ
    | ok p =>
      obtain ⟨ps, ppaid⟩ := p
      rw [hres] at happ
      simp only [Except.map] at happ
      injection happ with happ
      subst happ
      obtain ⟨-, -, s1, rewards, hu, -, hsplit⟩ := unstake_ok hres
      obtain ⟨a1, a2, -⟩ := update_frame hu
      rcases hsplit with ⟨-, -, rfl⟩ | ⟨-, -, rfl⟩ <;>
        · dsimp only
          rw [a1, a2]
          exact ⟨hle, rfl, hex⟩
  | claimA u lp =>
    simp only [applyAct] at happ
    cases hres : claimRewards s t2 u lp with
    | error e => rw [hres] at happ; simp [Except.map] at happ
    | ok p =>
      obtain ⟨ps, ppaid⟩ := p
      rw [hres] at happ
      simp only [Except.map] at happ
      injection happ with happ
      subst happ
      obtain ⟨-, s1, hu, -, -, -, rfl⟩ := claimRewards_ok hres
      obtain ⟨a1, a2, -⟩ := update_frame hu
      dsimp only
      rw [a1, a2]
      exact ⟨hle, rfl, hex⟩
  | proposeWithdrawA sd r amt =>
    simp only [applyAct] at happ
    cases hres : proposeWithdrawRewards s t2 sd r amt with
    | error e => rw [hres] at happ; simp [Except.map] at happ
    | ok p =>
      obtain ⟨ps, pc⟩ := p
      rw [hres] at happ
      simp only [Except.map] at happ
      injection happ with happ
      subst happ
      obtain ⟨-, -, hc, hother, -⟩ := proposeWithdrawRewards_ok hres
      rw [hc, hother id (by omega)]
      exact ⟨by omega, rfl, hex⟩
  | proposeRateA sd r =>
    simp only [applyAct] at happ
    cases hres : proposeSetHourlyRewardRate s t2 sd r with
    | error e => rw [hres] at happ; simp [Except.map] at happ
    | ok p =>
      obtain ⟨ps, pc⟩ := p
      rw [hres] at happ
      simp only [Except.map] at happ
      injection happ with happ
      subst happ
      obtain ⟨-, -, hc, hother, -⟩ := proposeSetHourlyRewardRate_ok hres
      rw [hc, hother id (by omega)]
      exact ⟨by omega, rfl, hex⟩
  | proposeWeightsA sd ls ws =>
    simp only [applyAct] at happ
    cases hres : proposeUpdatePairWeights s t2 sd ls ws with
    | error e => rw [hres] at happ; simp [Except.map] at happ
    | ok p =>
      obtain ⟨ps, pc⟩ := p
      rw [hres] at happ
      simp only [Except.map] at happ
      injection happ with happ
      subst happ
      obtain ⟨-, -, hc, hother, -⟩ := proposeUpdatePairWeights_ok hres
      rw [hc, hother id (by omega)]
      exact ⟨by omega, rfl, hex⟩
  | proposeAddA sd lp nm pf w =>
    simp only [applyAct] at happ
    cases hres : proposeAddPair s t2 sd lp nm pf w with
    | error e => rw [hres] at happ; simp [Except.map] at happ
    | ok p =>
      obtain ⟨ps, pc⟩ := p
      rw [hres] at happ
      simp only [Except.map] at happ
      injection happ with happ
      subst happ
      obtain ⟨-, -, -, -, -, hc, hother, -⟩ := proposeAddPair_ok hres
      rw [hc, hother id (by omega)]
      exact ⟨by omega, rfl, hex⟩
  | proposeRemoveA sd lp =>
    simp only [applyAct] at happ
    cases hres : proposeRemovePair s t2 sd lp with
    | error e => rw [hres] at happ; simp [Except.map] at happ
    | ok p =>
      obtain ⟨ps, pc⟩ := p
      rw [hres] at happ
      simp only [Except.map] at happ
      injection happ with happ
      subst happ
      obtain ⟨-, -, -, -, hc, hother, -⟩ := proposeRemovePair_ok hres
      rw [hc, hother id (by omega)]
      exact ⟨by omega, rfl, hex⟩
  | proposeChangeSignerA sd o n =>
    simp only [applyAct] at happ
    cases hres : proposeChangeSigner s t2 sd o n with
    | error e => rw [hres] at happ; simp [Except.map] at happ
    | ok p =>
      obtain ⟨ps, pc⟩ := p
      rw [hres] at happ
      simp only [Except.map] at happ
      injection happ with happ
      subst happ
      obtain ⟨-, -, -, -, -, hc, hother, -⟩ := proposeChangeSigner_ok hres
      rw [hc, hother id (by omega)]
      exact ⟨by omega, rfl, hex⟩
  | approveA sd j =>
    simp only [applyAct] at happ
    obtain ⟨-, -, -, hint⟩ := approveAction_ok happ
    obtain ⟨-, -, -, -, rfl⟩ := approveActionInternal_ok hint
    dsimp only
    by_cases hj : id = j
    · subst hj
      rw [updFn_apply_same]
      exact ⟨hle, rfl, hex⟩
    · rw [updFn_apply_ne _ _ hj]
      exact ⟨hle, rfl, hex⟩
  | executeA sd j =>
    simp only [applyAct] at happ
    obtain ⟨-, -, -, -, -, -, htime, s1, hd, rfl⟩ := executeAction_ok happ
    obtain ⟨ha, hc⟩ := execDispatch_actions hd
    by_cases hj : id = j
    · subst hj
      exact absurd hexp htime
    · dsimp only
      rw [updFn_apply_ne _ _ hj, ha, hc]
      exact ⟨hle, rfl, hex⟩
  | handleExpiredA sd j =>
    simp only [applyAct] at happ
    obtain ⟨-, -, -, -, -, rfl⟩ := handleExpiredAction_ok happ
    dsimp only
    by_cases hj : id = j
    · subst hj
      rw [updFn_apply_same]
      exact ⟨hle, rfl, hex⟩
    · rw [updFn_apply_ne _ _ hj]
      exact ⟨hle, rfl, hex⟩
  | cleanupA sd =>
    simp only [applyAct] at happ
    obtain ⟨-, rfl⟩ := cleanupExpiredActions_ok happ
    dsimp only
    rcases cleanupLoop_eq_or t2 s.actions s.actionCounter id with
      hcl | hcl <;> rw [hcl]
    · exact ⟨hle, rfl, hex⟩
    · exact ⟨hle, rfl, hex⟩
  | fundA u lp ua ca ra =>
    simp only [applyAct] at happ
    injection happ with happ
    subst happ
    exact ⟨hle, rfl, hex⟩

/-- C4: an action that is past its expiry window (`now > proposedTime +
7 days`) and not yet executed can never reach the executed state, no matter
how many approvals it has or later gathers: along every sequence of
successful operations at non-decreasing timestamps its `executed` flag stays
false and every `executeAction` attempt on it fails. -/
theorem c4_expired_action_never_executes {t0 t : Nat} {s0 s : State} {id : Nat}
    (hle : id ≤ s0.actionCounter)
    (hex : (s0.actions id).executed = false)
    (hexp : (s0.actions id).proposedTime + ACTION_EXPIRY < t0)
    (hr : Reach t0 s0 t s) :
    (s.actions id).executed = false ∧
    ∀ sd s2, executeAction s t id sd ≠ .ok s2 := by
  have main : id ≤ s.actionCounter ∧
      (s.actions id).proposedTime = (s0.actions id).proposedTime ∧
      (s.actions id).executed = false := by
    induction hr with
    | refl => exact ⟨hle, rfl, hex⟩
    | step a hr2 hle2 happ ih =>
      obtain ⟨ih1, ih2, ih3⟩ := ih
      have ht1 := reach_le hr2
      have hstep := c4_step happ ih1 ih3 (by rw [ih2]; omega)
      exact ⟨hstep.1, hstep.2.1.trans ih2, hstep.2.2⟩
  refine ⟨main.2.2, ?_⟩
  intro sd s2 hok
  obtain ⟨-, -, -, -, -, -, htime, -⟩ := executeAction_ok hok
  have ht : t0 ≤ t := reach_le hr
  rw [main.2.1] at htime
  omega

/-- Witness for `c4_expired_action_never_executes`: action 3 of `cs11`
(proposed at t = 2000, one approval) is past expiry at t = 606801; its
executed flag is false and `executeAction` by signer 2 fails there. -/
theorem c4_witness :
    ((cs11.actions 3).executed = false ∧
      ∀ sd s2, executeAction cs11 606801 3 sd ≠ .ok s2) ∧
    3 ≤ cs11.actionCounter ∧
    (cs11.actions 3).proposedTime + ACTION_EXPIRY < 606801 :=
  ⟨c4_expired_action_never_executes (by decide) (by decide) (by decide)
      (Reach.refl 606801 cs11),
    by decide, by decide⟩

/-- State after user 10 claims the rewards accrued in `cs10` over one hour,
at t = 4600. -/
def csAfterClaim : State := okS ((claimRewards cs10 4600 10 7).map Prod.fst)

/-- Witness for `c2_earned_matches_claim_payout`: on `cs10` at t = 4600 the
read-only `earned` returns 239999999999999997600 and `claimRewards` pays
exactly that amount. -/
theorem c2_witness :
    earned cs10 4600 10 7 = .ok 239999999999999997600 ∧
    claimRewards cs10 4600 10 7 = .ok (csAfterClaim, 239999999999999997600) ∧
    (239999999999999997600 : Nat) = 239999999999999997600 :=
  ⟨rfl, rfl, c2_earned_matches_claim_payout
    (rfl : earned cs10 4600 10 7 = .ok 239999999999999997600)
    (rfl : claimRewards cs10 4600 10 7 = .ok (csAfterClaim, 239999999999999997600))⟩

/-- Witness for `c7_no_double_claim`: the first claim on `cs10` at t = 4600
pays a positive amount and the immediate second claim fails `NoRewards`. -/
theorem c7_witness :
    0 < 239999999999999997600 ∧
    claimRewards csAfterClaim 4600 10 7 = .error Err.noRewards :=
  c7_no_double_claim
    (rfl : claimRewards cs10 4600 10 7 = .ok (csAfterClaim, 239999999999999997600))

theorem dropLast_cons_of_ne_nil {a : Nat} {m : List Nat} (h : m ≠ []) :
    (a :: m).dropLast = a :: m.dropLast := by
  cases m with
  | nil => exact absurd rfl h
  | cons b r => exact List.dropLast_cons₂

theorem getLastD_irrel {t : List Nat} (h : t ≠ []) (d1 d2 : Nat) :
    t.getLastD d1 = t.getLastD d2 := by
  cases t with
  | nil => exact absurd rfl h
  | cons b r => rw [List.getLastD_cons, List.getLastD_cons]

theorem removeActivePair_perm_erase :
    ∀ {l : List Nat} {x : Nat}, x ∈ l →
      List.Perm (removeActivePair l x) (l.erase x) := by
  intro l
  induction l with
  | nil => intro x hx; simp at hx
  | cons a t ih =>
    intro x hx
    by_cases hax : a = x
    · subst hax
      unfold removeActivePair
      rw [if_pos (by simp), List.indexOf_cons_self, List.set_cons_zero,
        List.erase_cons_head]
      cases t with
      | nil => simp
      | cons b r =>
        rw [List.getLastD_cons]
        have hne : (b :: r) ≠ ([] : List Nat) := by simp
        have hg : (b :: r).getLastD a = (b :: r).getLast hne := by
          rw [List.getLast_eq_getLastD, List.getLastD_cons]
        rw [dropLast_cons_of_ne_nil hne, hg]
        have hperm :=
          (List.perm_append_singleton ((b :: r).getLast hne) (b :: r).dropLast).symm
        have h2 := List.dropLast_append_getLast hne
        refine hperm.trans ?_
        rw [h2]
    · have hxt : x ∈ t := by
        rcases hx with _ | h
        · exact absurd rfl hax
        · assumption
      have htne : t ≠ [] := by
        cases t with
        | nil => simp at hxt
        | cons b r => simp
      unfold removeActivePair
      rw [if_pos (by simp [hxt]), List.indexOf_cons_ne t hax]
      rw [List.getLastD_cons]
      rw [List.set_cons_succ]
      have hset : t.set (List.indexOf x t) (t.getLastD a) ≠ [] := by
        cases t with
        | nil => exact absurd rfl htne
        | cons b r =>
          cases hidx : List.indexOf x (b :: r) with
          | zero => rw [List.set_cons_zero]; simp
          | succ i => rw [List.set_cons_succ]; simp
      rw [dropLast_cons_of_ne_nil hset, getLastD_irrel htne a 0]
      rw [List.erase_cons_tail (by simp [hax])]
      refine List.Perm.cons a ?_
      have hr := ih hxt
      unfold removeActivePair at hr
      rw [if_pos hxt] at hr
      exact hr

theorem removeActivePair_nodup {l : List Nat} {x : Nat} (hx : x ∈ l)
    (hn : l.Nodup) : (removeActivePair l x).Nodup :=
  ((removeActivePair_perm_erase hx).symm).nodup (hn.erase x)

theorem removeActivePair_mem_iff {l : List Nat} {x p : Nat} (hx : x ∈ l)
    (hn : l.Nodup) : p ∈ removeActivePair l x ↔ (p ∈ l ∧ p ≠ x) := by
  rw [(removeActivePair_perm_erase hx).mem_iff, hn.mem_erase_iff]
  tauto

theorem sumWeights_remove {l : List Nat} {x : Nat} (pm : Nat → LiquidityPair)
    (hx : x ∈ l) :
    sumWeights pm l = (pm x).weight + sumWeights pm (removeActivePair l x) := by
  unfold sumWeights
  have h1 := (List.perm_cons_erase hx).map (fun p => (pm p).weight)
  have h2 := (removeActivePair_perm_erase hx).map (fun p => (pm p).weight)
  rw [h1.sum_eq, h2.sum_eq, List.map_cons, List.sum_cons]

theorem sumWeights_congr {pm pm' : Nat → LiquidityPair} {l : List Nat}
    (h : ∀ p ∈ l, (pm' p).weight = (pm p).weight) :
    sumWeights pm' l = sumWeights pm l := by
  unfold sumWeights
  induction l with
  | nil => rfl
  | cons a t ih =>
    rw [List.map_cons, List.map_cons, List.sum_cons, List.sum_cons,
      h a (by simp), ih (fun p hp => h p (by simp [hp]))]

theorem sumWeights_append (pm : Nat → LiquidityPair) (l1 l2 : List Nat) :
    sumWeights pm (l1 ++ l2) = sumWeights pm l1 + sumWeights pm l2 := by
  simp [sumWeights]

theorem cleanupLoop_untouched (now : Nat) (acts : Nat → PendingAction) :
    ∀ (n j : Nat), (j = 0 ∨ n < j) → cleanupLoop now acts n j = acts j := by
  intro n
  induction n with
  | zero => intro j hj; rfl
  | succ i ih =>
    intro j hj
    have hji : j ≠ i + 1 := by omega
    unfold cleanupLoop
    dsimp only
    split
    · rw [updFn_apply_ne _ _ hji]
      exact ih j (by omega)
    · exact ih j (by omega)

/-- Invariants maintained by every reachable state: `totalWeight` is the sum
of the weights of the pools in the active-pool index, a pool is flagged
active exactly when it is in that index, index entries are distinct and have
nonzero token handles, action slots beyond the counter (and slot 0) are
untouched, an ADD_PAIR action always carries a nonzero pool handle, and each
approval set is duplicate-free with `approvals` equal to its size. -/
def StateInv (s : State) : Prop :=
  s.totalWeight = sumWeights s.pairs s.activePairs ∧
  (∀ p, (s.pairs p).isActive = true ↔ p ∈ s.activePairs) ∧
  s.activePairs.Nodup ∧
  (∀ p, p ∈ s.activePairs → (s.pairs p).lpToken ≠ 0) ∧
  (∀ j, s.actionCounter < j → s.actions j = emptyAction) ∧
  s.actions 0 = emptyAction ∧
  (∀ j, (s.actions j).actionType = ActionType.ADD_PAIR →
    (s.actions j).pairToAdd ≠ 0) ∧
  (∀ j, (s.actions j).approvedBy.Nodup) ∧
  (∀ j, (s.actions j).approvals = (s.actions j).approvedBy.length)

theorem stateInv_frame {s s' : State}
    (hp : s'.pairs = s.pairs) (ha : s'.activePairs = s.activePairs)
    (hw : s'.totalWeight = s.totalWeight) (hac : s'.actions = s.actions)
    (hc : s'.actionCounter = s.actionCounter) (hinv : StateInv s) :
    StateInv s' := by
  unfold StateInv at hinv ⊢
  rw [hp, ha, hw, hac, hc]
  exact hinv

theorem stateInv_propose {s s' : State} (sd : Nat)
    (hc : s'.actionCounter = s.actionCounter + 1)
    (hother : ∀ j, j ≠ s.actionCounter + 1 → s'.actions j = s.actions j)
    (htype : (s'.actions (s.actionCounter + 1)).actionType = ActionType.ADD_PAIR →
      (s'.actions (s.actionCounter + 1)).pairToAdd ≠ 0)
    (happr : (s'.actions (s.actionCounter + 1)).approvedBy =
      (s.actions (s.actionCounter + 1)).approvedBy ++ [sd])
    (happrs : (s'.actions (s.actionCounter + 1)).approvals =
      (s.actions (s.actionCounter + 1)).approvals + 1)
    (hp : s'.pairs = s.pairs) (ha : s'.activePairs = s.activePairs)
    (hw : s'.totalWeight = s.totalWeight)
    (hinv : StateInv s) : StateInv s' := by
  obtain ⟨i1, i2, i3, i4, i5, i6, i7, i8, i9⟩ := hinv
  have hEmpty : s.actions (s.actionCounter + 1) = emptyAction := i5 _ (by omega)
  refine ⟨by rw [hw, hp, ha]; exact i1, by rw [hp, ha]; exact i2,
    by rw [ha]; exact i3, by rw [hp, ha]; exact i4, ?_, ?_, ?_, ?_, ?_⟩
  · intro j hj
    rw [hc] at hj
    rw [hother j (by omega)]
    exact i5 j (by omega)
  · rw [hother 0 (by omega)]
    exact i6
  · intro j hj
    by_cases hcid : j = s.actionCounter + 1
    · subst hcid
      exact htype hj
    · rw [hother j hcid] at hj ⊢
      exact i7 j hj
  · intro j
    by_cases hcid : j = s.actionCounter + 1
    · subst hcid
      rw [happr, hEmpty]
      simp [emptyAction]
    · rw [hother j hcid]
      exact i8 j
  · intro j
    by_cases hcid : j = s.actionCounter + 1
    · subst hcid
      rw [happr, happrs, hEmpty]
      simp [emptyAction]
    · rw [hother j hcid]
      exact i9 j

theorem stateInv_dispatch {s : State} {now : Nat} {pa : PendingAction} {s1 : State}
    (hd : execDispatch s now pa = .ok s1)
    (hadd : pa.actionType = ActionType.ADD_PAIR → pa.pairToAdd ≠ 0)
    (hinv : StateInv s) : StateInv s1 := by
  unfold execDispatch at hd
  split at hd
  · -- SET_HOURLY_REWARD_RATE
    split at hd
    · simp at hd
    · rename_i sU hU
      injection hd with hd
      subst hd
      obtain ⟨f1, f2, f3, f4, f5, -⟩ := updateAllRewardsLoop_frame hU
      exact stateInv_frame f3 f4 f5 f1 f2 hinv
  · -- UPDATE_PAIR_WEIGHTS
    split at hd
    · simp at hd
    · rename_i sU hU
      split at hd
      · simp at hd
      · rename_i pm hpm
        injection hd with hd
        subst hd
        obtain ⟨f1, f2, f3, f4, f5, -⟩ := updateAllRewardsLoop_frame hU
        obtain ⟨i1, i2, i3, i4, i5, i6, i7, i8, i9⟩ := hinv
        have hfld := setPairWeights_fields hpm
        refine ⟨rfl, ?_, ?_, ?_, ?_, ?_, ?_, ?_, ?_⟩
        · intro p
          dsimp only
          rw [(hfld p).1, f3, f4]
          exact i2 p
        · dsimp only
          rw [f4]
          exact i3
        · intro p hp
          dsimp only at hp ⊢
          rw [f4] at hp
          rw [(hfld p).2.1, f3]
          exact i4 p hp
        · intro j hj
          dsimp only at hj ⊢
          rw [f2] at hj
          rw [f1]
          exact i5 j hj
        · dsimp only
          rw [f1]
          exact i6
        · intro j
          dsimp only
          rw [f1]
          exact i7 j
        · intro j
          dsimp only
          rw [f1]
          exact i8 j
        · intro j
          dsimp only
          rw [f1]
          exact i9 j
  · -- ADD_PAIR
    rename_i htype
    split_ifs at hd with g1 g2 g3 g4
    injection hd with hd
    subst hd
    obtain ⟨i1, i2, i3, i4, i5, i6, i7, i8, i9⟩ := hinv
    have hlp0 : (s.pairs pa.pairToAdd).lpToken = 0 := by
      by_contra hcon
      exact g1 hcon
    have hx0 : pa.pairToAdd ≠ 0 := hadd htype
    have hnotmem : pa.pairToAdd ∉ s.activePairs := fun hmem => (i4 _ hmem) hlp0
    refine ⟨?_, ?_, ?_, ?_, i5, i6, i7, i8, i9⟩
    · dsimp only
      rw [sumWeights_append]
      have hcg : sumWeights (updFn s.pairs pa.pairToAdd
          { lpToken := pa.pairToAdd, pairName := pa.pairNameToAdd,
            platform := pa.platformToAdd, weight := pa.weightToAdd,
            isActive := true }) s.activePairs = sumWeights s.pairs s.activePairs := by
        apply sumWeights_congr
        intro p hp
        rw [updFn_apply_ne _ _ (fun hpx => hnotmem (by rw [← hpx]; exact hp))]
      rw [hcg, ← i1]
      simp [sumWeights, updFn_apply_same]
    · intro p
      dsimp only
      by_cases hpx : p = pa.pairToAdd
      · subst hpx
        rw [updFn_apply_same]
        simp
      · rw [updFn_apply_ne _ _ hpx]
        rw [List.mem_append]
        simp only [List.mem_singleton, hpx, or_false]
        exact i2 p
    · dsimp only
      rw [List.nodup_append]
      exact ⟨i3, by simp, by
        intro a ha hb
        rw [List.mem_singleton] at hb
        exact hnotmem (hb ▸ ha)⟩
    · intro p hp
      dsimp only at hp ⊢
      rw [List.mem_append, List.mem_singleton] at hp
      rcases hp with hp | hp
      · rw [updFn_apply_ne _ _ (fun hpx => hnotmem (by rw [← hpx]; exact hp))]
        exact i4 p hp
      · subst hp
        rw [updFn_apply_same]
        exact hx0
  · -- REMOVE_PAIR
    dsimp only at hd
    split_ifs at hd with g1
    injection hd with hd
    subst hd
    obtain ⟨i1, i2, i3, i4, i5, i6, i7, i8, i9⟩ := hinv
    have hact : (s.pairs pa.pairToRemove).isActive = true := g1
    have hmem : pa.pairToRemove ∈ s.activePairs := (i2 _).mp hact
    refine ⟨?_, ?_, ?_, ?_, i5, i6, i7, i8, i9⟩
    · dsimp only
      have hcg : sumWeights (updFn s.pairs pa.pairToRemove
          { s.pairs pa.pairToRemove with isActive := false, weight := 0 })
          (removeActivePair s.activePairs pa.pairToRemove) =
          sumWeights s.pairs (removeActivePair s.activePairs pa.pairToRemove) := by
        apply sumWeights_congr
        intro p hp
        rw [removeActivePair_mem_iff hmem i3] at hp
        rw [updFn_apply_ne _ _ hp.2]
      rw [hcg]
      have hsum := sumWeights_remove s.pairs hmem
      rw [i1, hsum]
      omega
    · intro p
      dsimp only
      by_cases hpx : p = pa.pairToRemove
      · subst hpx
        rw [updFn_apply_same]
        rw [removeActivePair_mem_iff hmem i3]
        simp
      · rw [updFn_apply_ne _ _ hpx]
        rw [removeActivePair_mem_iff hmem i3]
        rw [i2 p]
        simp [hpx]
    · dsimp only
      exact removeActivePair_nodup hmem i3
    · intro p hp
      dsimp only at hp ⊢
      rw [removeActivePair_mem_iff hmem i3] at hp
      rw [updFn_apply_ne _ _ hp.2]
      exact i4 p hp.1
  · -- CHANGE_SIGNER
    dsimp only at hd
    injection hd with hd
    subst hd
    exact stateInv_frame rfl rfl rfl rfl rfl hinv
  · -- WITHDRAW_REWARDS
    split_ifs at hd
    injection hd with hd
    subst hd
    exact stateInv_frame rfl rfl rfl rfl rfl hinv

theorem nodup_append_singleton {l : List Nat} {a : Nat} (hn : l.Nodup)
    (hm : a ∉ l) : (l ++ [a]).Nodup := by
  rw [List.nodup_append]
  exact ⟨hn, by simp, by
    intro b hb hb2
    rw [List.mem_singleton] at hb2
    exact hm (hb2 ▸ hb)⟩

theorem stateInv_approveInternal {s : State} {now id sd : Nat} {s' : State}
    (h : approveActionInternal s now id sd = .ok s') (hid : 0 < id)
    (hidle : id ≤ s.actionCounter) (hinv : StateInv s) : StateInv s' := by
  obtain ⟨-, -, -, hnm, rfl⟩ := approveActionInternal_ok h
  obtain ⟨i1, i2, i3, i4, i5, i6, i7, i8, i9⟩ := hinv
  refine ⟨i1, i2, i3, i4, ?_, ?_, ?_, ?_, ?_⟩
  · intro j hj
    dsimp only at hj ⊢
    rw [updFn_apply_ne _ _ (by omega : j ≠ id)]
    exact i5 j hj
  · dsimp only
    rw [updFn_apply_ne _ _ (by omega : (0 : Nat) ≠ id)]
    exact i6
  · intro j
    dsimp only
    by_cases hij : j = id
    · subst hij
      rw [updFn_apply_same]
      exact i7 j
    · rw [updFn_apply_ne _ _ hij]
      exact i7 j
  · intro j
    dsimp only
    by_cases hij : j = id
    · subst hij
      rw [updFn_apply_same]
      exact nodup_append_singleton (i8 j) hnm
    · rw [updFn_apply_ne _ _ hij]
      exact i8 j
  · intro j
    dsimp only
    by_cases hij : j = id
    · subst hij
      rw [updFn_apply_same]
      dsimp only
      rw [i9 j, List.length_append]
      rfl
    · rw [updFn_apply_ne _ _ hij]
      exact i9 j

theorem stateInv_execute {s : State} {now id sd : Nat} {s' : State}
    (h : executeAction s now id sd = .ok s') (hinv : StateInv s) : StateInv s' := by
  obtain ⟨-, hid, hidle, -, -, -, -, s1, hd, rfl⟩ := executeAction_ok h
  have hadd : (s.actions id).actionType = ActionType.ADD_PAIR →
      (s.actions id).pairToAdd ≠ 0 := hinv.2.2.2.2.2.2.1 id
  have hinv1 := stateInv_dispatch hd hadd hinv
  obtain ⟨i1, i2, i3, i4, i5, i6, i7, i8, i9⟩ := hinv1
  obtain ⟨ha, hc⟩ := execDispatch_actions hd
  refine ⟨i1, i2, i3, i4, ?_, ?_, ?_, ?_, ?_⟩
  · intro j hj
    dsimp only at hj ⊢
    rw [updFn_apply_ne _ _ (by rw [hc] at hj; omega : j ≠ id)]
    exact i5 j hj
  · dsimp only
    rw [updFn_apply_ne _ _ (by omega : (0 : Nat) ≠ id)]
    exact i6
  · intro j
    dsimp only
    by_cases hij : j = id
    · subst hij
      rw [updFn_apply_same]
      exact i7 j
    · rw [updFn_apply_ne _ _ hij]
      exact i7 j
  · intro j
    dsimp only
    by_cases hij : j = id
    · subst hij
      rw [updFn_apply_same]
      exact i8 j
    · rw [updFn_apply_ne _ _ hij]
      exact i8 j
  · intro j
    dsimp only
    by_cases hij : j = id
    · subst hij
      rw [updFn_apply_same]
      exact i9 j
    · rw [updFn_apply_ne _ _ hij]
      exact i9 j

theorem stateInv_cleanup {s : State} {now sd : Nat} {s' : State}
    (h : cleanupExpiredActions s now sd = .ok s') (hinv : StateInv s) :
    StateInv s' := by
  obtain ⟨-, rfl⟩ := cleanupExpiredActions_ok h
  obtain ⟨i1, i2, i3, i4, i5, i6, i7, i8, i9⟩ := hinv
  refine ⟨i1, i2, i3, i4, ?_, ?_, ?_, ?_, ?_⟩
  · intro j hj
    dsimp only at hj ⊢
    rw [cleanupLoop_untouched now s.actions s.actionCounter j (Or.inr hj)]
    exact i5 j hj
  · dsimp only
    rw [cleanupLoop_untouched now s.actions s.actionCounter 0 (Or.inl rfl)]
    exact i6
  · intro j
    dsimp only
    rcases cleanupLoop_eq_or now s.actions s.actionCounter j with hcl | hcl <;>
      rw [hcl] <;> exact i7 j
  · intro j
    dsimp only
    rcases cleanupLoop_eq_or now s.actions s.actionCounter j with hcl | hcl <;>
      rw [hcl] <;> exact i8 j
  · intro j
    dsimp only
    rcases cleanupLoop_eq_or now s.actions s.actionCounter j with hcl | hcl <;>
      rw [hcl] <;> exact i9 j

theorem applyAct_inv {t2 : Nat} {a : Act} {s s' : State}
    (happ : applyAct t2 a s = .ok s') (hinv : StateInv s) : StateInv s' := by
  cases a with
  | stakeA u lp amt =>
    obtain ⟨-, -, -, s1, pend, hu, rfl⟩ := stake_ok happ
    obtain ⟨f1, f2, f3, f4, f5, -⟩ := update_frame hu
    exact stateInv_frame f3 f4 f5 f1 f2 hinv
  | unstakeA u lp amt =>
    simp only [applyAct] at happ
    cases hres : unstake s t2 u lp amt with
    | error e => rw [hres] at happ; simp [Except.map] at happ
    | ok p =>
      obtain ⟨ps, ppaid⟩ := p
      rw [hres] at happ
      simp only [Except.map] at happ
      injection happ with happ
      subst happ
      obtain ⟨-, -, s1, rewards, hu, -, hsplit⟩ := unstake_ok hres
      obtain ⟨f1, f2, f3, f4, f5, -⟩ := update_frame hu
      rcases hsplit with ⟨-, -, rfl⟩ | ⟨-, -, rfl⟩ <;>
        exact stateInv_frame f3 f4 f5 f1 f2 hinv
  | claimA u lp =>
    simp only [applyAct] at happ
    cases hres : claimRewards s t2 u lp with
    | error e => rw [hres] at happ; simp [Except.map] at happ
    | ok p =>
      obtain ⟨ps, ppaid⟩ := p
      rw [hres] at happ
      simp only [Except.map] at happ
      injection happ with happ
      subst happ
      obtain ⟨-, s1, hu, -, -, -, rfl⟩ := claimRewards_ok hres
      obtain ⟨f1, f2, f3, f4, f5, -⟩ := update_frame hu
      exact stateInv_frame f3 f4 f5 f1 f2 hinv
  | proposeWithdrawA sd r amt =>
    simp only [applyAct] at happ
    cases hres : proposeWithdrawRewards s t2 sd r amt with
    | error e => rw [hres] at happ; simp [Except.map] at happ
    | ok p =>
      obtain ⟨ps, pc⟩ := p
      rw [hres] at happ
      simp only [Except.map] at happ
      injection happ with happ
      subst happ
      obtain ⟨-, -, hc, hother, hslot, hp, ha, hw, -⟩ :=
        proposeWithdrawRewards_ok hres
      refine stateInv_propose sd hc hother ?_ ?_ ?_ hp ha hw hinv
      · rw [hslot]
        intro hcon
        simp at hcon
      · rw [hslot]
      · rw [hslot]
  | proposeRateA sd r =>
    simp only [applyAct] at happ
    cases hres : proposeSetHourlyRewardRate s t2 sd r with
    | error e => rw [hres] at happ; simp [Except.map] at happ
    | ok p =>
      obtain ⟨ps, pc⟩ := p
      rw [hres] at happ
      simp only [Except.map] at happ
      injection happ with happ
      subst happ
      obtain ⟨-, -, hc, hother, hslot, hp, ha, hw, -⟩ :=
        proposeSetHourlyRewardRate_ok hres
      refine stateInv_propose sd hc hother ?_ ?_ ?_ hp ha hw hinv
      · rw [hslot]
        intro hcon
        simp at hcon
      · rw [hslot]
      · rw [hslot]
  | proposeWeightsA sd ls ws =>
    simp only [applyAct] at happ
    cases hres : proposeUpdatePairWeights s t2 sd ls ws with
    | error e => rw [hres] at happ; simp [Except.map] at happ
    | ok p =>
      obtain ⟨ps, pc⟩ := p
      rw [hres] at happ
      simp only [Except.map] at happ
      injection happ with happ
      subst happ
      obtain ⟨-, -, hc, hother, hslot, hp, ha, hw, -⟩ :=
        proposeUpdatePairWeights_ok hres
      refine stateInv_propose sd hc hother ?_ ?_ ?_ hp ha hw hinv
      · rw [hslot]
        intro hcon
        simp at hcon
      · rw [hslot]
      · rw [hslot]
  | proposeAddA sd lp nm pf w =>
    simp only [applyAct] at happ
    cases hres : proposeAddPair s t2 sd lp nm pf w with
    | error e => rw [hres] at happ; simp [Except.map] at happ
    | ok p =>
      obtain ⟨ps, pc⟩ := p
      rw [hres] at happ
      simp only [Except.map] at happ
      injection happ with happ
      subst happ
      obtain ⟨-, hlp, -, -, -, hc, hother, hslot, hp, ha, hw, -⟩ :=
        proposeAddPair_ok hres
      refine stateInv_propose sd hc hother ?_ ?_ ?_ hp ha hw hinv
      · rw [hslot]
        intro hcon
        exact hlp
      · rw [hslot]
      · rw [hslot]
  | proposeRemoveA sd lp =>
    simp only [applyAct] at happ
    cases hres : proposeRemovePair s t2 sd lp with
    | error e => rw [hres] at happ; simp [Except.map] at happ
    | ok p =>
      obtain ⟨ps, pc⟩ := p
      rw [hres] at happ
      simp only [Except.map] at happ
      injection happ with happ
      subst happ
      obtain ⟨-, -, -, -, hc, hother, hslot, hp, ha, hw, -⟩ :=
        proposeRemovePair_ok hres
      refine stateInv_propose sd hc hother ?_ ?_ ?_ hp ha hw hinv
      · rw [hslot]
        intro hcon
        simp at hcon
      · rw [hslot]
      · rw [hslot]
  | proposeChangeSignerA sd o n =>
    simp only [applyAct] at happ
    cases hres : proposeChangeSigner s t2 sd o n with
    | error e => rw [hres] at happ; simp [Except.map] at happ
    | ok p =>
      obtain ⟨ps, pc⟩ := p
      rw [hres] at happ
      simp only [Except.map] at happ
      injection happ with happ
      subst happ
      obtain ⟨-, -, -, -, -, hc, hother, hslot, hp, ha, hw, -⟩ :=
        proposeChangeSigner_ok hres
      refine stateInv_propose sd hc hother ?_ ?_ ?_ hp ha hw hinv
      · rw [hslot]
        intro hcon
        simp at hcon
      · rw [hslot]
      · rw [hslot]
  | approveA sd j =>
    simp only [applyAct] at happ
    obtain ⟨-, hj0, hjle, hint⟩ := approveAction_ok happ
    exact stateInv_approveInternal hint hj0 hjle hinv
  | executeA sd j =>
    simp only [applyAct] at happ
    exact stateInv_execute happ hinv
  | handleExpiredA sd j =>
    simp only [applyAct] at happ
    obtain ⟨-, hj0, hjle, -, -, rfl⟩ := handleExpiredAction_ok happ
    obtain ⟨i1, i2, i3, i4, i5, i6, i7, i8, i9⟩ := hinv
    refine ⟨i1, i2, i3, i4, ?_, ?_, ?_, ?_, ?_⟩
    · intro k hk
      dsimp only at hk ⊢
      rw [updFn_apply_ne _ _ (by omega : k ≠ j)]
      exact i5 k hk
    · dsimp only
      rw [updFn_apply_ne _ _ (by omega : (0 : Nat) ≠ j)]
      exact i6
    · intro k
      dsimp only
      by_cases hkj : k = j
      · subst hkj
        rw [updFn_apply_same]
        exact i7 k
      · rw [updFn_apply_ne _ _ hkj]
        exact i7 k
    · intro k
      dsimp only
      by_cases hkj : k = j
      · subst hkj
        rw [updFn_apply_same]
        exact i8 k
      · rw [updFn_apply_ne _ _ hkj]
        exact i8 k
    · intro k
      dsimp only
      by_cases hkj : k = j
      · subst hkj
        rw [updFn_apply_same]
        exact i9 k
      · rw [updFn_apply_ne _ _ hkj]
        exact i9 k
  | cleanupA sd =>
    simp only [applyAct] at happ
    exact stateInv_cleanup happ hinv
  | fundA u lp ua ca ra =>
    simp only [applyAct] at happ
    injection happ with happ
    subst happ
    exact stateInv_frame rfl rfl rfl rfl rfl hinv

theorem initState_inv {rt : Nat} {sgs : List Nat} {s0 : State}
    (h : initState rt sgs = .ok s0) : StateInv s0 := by
  unfold initState at h
  split_ifs at h
  injection h with h
  subst h
  refine ⟨rfl, ?_, by simp, by simp, fun j _ => rfl, rfl, ?_, fun j => by simp [emptyAction], fun j => rfl⟩
  · intro p
    simp [emptyPair]
  · intro j hcon
    simp [emptyAction] at hcon

theorem reach_inv {t0 : Nat} {s0 : State} {t : Nat} {s : State}
    (hr : Reach t0 s0 t s) (h0 : StateInv s0) : StateInv s := by
  induction hr with
  | refl => exact h0
  | step a hr2 hle2 happ ih => exact applyAct_inv happ ih

theorem reachable_inv {t : Nat} {s : State} (h : Reachable t s) : StateInv s := by
  obtain ⟨rt, sgs, t0, s0, hinit, hr⟩ := h
  exact reach_inv hr (initState_inv hinit)

theorem step_cs9_raw : executeAction cs8 1000 2 2 = .ok cs9 := rfl

theorem step_cs14_raw : executeAction cs13 2000 3 2 = .ok cs14 := rfl

theorem execDispatch_update {s : State} {now : Nat} {pa : PendingAction} {s1 : State}
    (hd : execDispatch s now pa = .ok s1)
    (ht : pa.actionType = ActionType.UPDATE_PAIR_WEIGHTS) :
    ∃ sU pm, updateAllRewards s now = .ok sU ∧
      setPairWeights pa.pairs pa.weights sU.pairs = .ok pm ∧
      s1 = { sU with pairs := pm, totalWeight := sumWeights pm sU.activePairs } := by
  unfold execDispatch at hd
  rw [ht] at hd
  dsimp only at hd
  cases hU : updateAllRewards s now with
  | error e => rw [hU] at hd; simp at hd
  | ok sU =>
    rw [hU] at hd
    dsimp only at hd
    cases hpm : setPairWeights pa.pairs pa.weights sU.pairs with
    | error e => rw [hpm] at hd; simp at hd
    | ok pm =>
      rw [hpm] at hd
      dsimp only at hd
      injection hd with hd
      exact ⟨sU, pm, rfl, hpm, hd.symm⟩

theorem execDispatch_remove {s : State} {now : Nat} {pa : PendingAction} {s1 : State}
    (hd : execDispatch s now pa = .ok s1)
    (ht : pa.actionType = ActionType.REMOVE_PAIR) :
    (s.pairs pa.pairToRemove).isActive = true ∧
    s1 = { s with
            totalWeight := s.totalWeight - (s.pairs pa.pairToRemove).weight
            pairs := updFn s.pairs pa.pairToRemove
              { s.pairs pa.pairToRemove with isActive := false, weight := 0 }
            activePairs := removeActivePair s.activePairs pa.pairToRemove } := by
  unfold execDispatch at hd
  rw [ht] at hd
  dsimp only at hd
  split_ifs at hd with g
  injection hd with hd
  exact ⟨g, hd.symm⟩

/-- C5: in every reachable state `totalWeight` equals the sum of the weights
of exactly the pools in the active index, and a pool is flagged active iff it
is in that index; moreover an executed UPDATE_PAIR_WEIGHTS leaves
`totalWeight` equal to the sum over the entire (unchanged) active-pool index
with the new weights, and an executed REMOVE_PAIR zeroes the removed pool's
weight, deactivates it, and subtracts its weight from `totalWeight`. -/
theorem c5_totalWeight_invariant :
    (∀ t s, Reachable t s →
      s.totalWeight = sumWeights s.pairs s.activePairs ∧
      (∀ p, (s.pairs p).isActive = true ↔ p ∈ s.activePairs)) ∧
    (∀ s now id sd s', executeAction s now id sd = .ok s' →
      (s.actions id).actionType = ActionType.UPDATE_PAIR_WEIGHTS →
      s'.totalWeight = sumWeights s'.pairs s'.activePairs ∧
      s'.activePairs = s.activePairs) ∧
    (∀ s now id sd s', executeAction s now id sd = .ok s' →
      (s.actions id).actionType = ActionType.REMOVE_PAIR →
      (s'.pairs (s.actions id).pairToRemove).weight = 0 ∧
      (s'.pairs (s.actions id).pairToRemove).isActive = false ∧
      s'.totalWeight = s.totalWeight - (s.pairs (s.actions id).pairToRemove).weight) := by
  refine ⟨?_, ?_, ?_⟩
  · intro t s h
    have hinv := reachable_inv h
    exact ⟨hinv.1, hinv.2.1⟩
  · intro s now id sd s' h ht
    obtain ⟨-, -, -, -, -, -, -, s1, hd, rfl⟩ := executeAction_ok h
    obtain ⟨sU, pm, hU, hpm, rfl⟩ := execDispatch_update hd ht
    obtain ⟨-, -, -, f4, -⟩ := updateAllRewardsLoop_frame hU
    exact ⟨rfl, f4⟩
  · intro s now id sd s' h ht
    obtain ⟨-, -, -, -, -, -, -, s1, hd, rfl⟩ := executeAction_ok h
    obtain ⟨hact, rfl⟩ := execDispatch_remove hd ht
    dsimp only
    rw [updFn_apply_same]
    exact ⟨rfl, rfl, rfl⟩

/-- Witness for `c5_totalWeight_invariant`: concrete instantiations on the
reachable states `cs10` (invariant) and on the executed weight-update of
`cs14` and the executed pool removal built on it. -/
theorem c5_witness :
    cs10.totalWeight = sumWeights cs10.pairs cs10.activePairs ∧
    ((cs10.pairs 7).isActive = true ↔ 7 ∈ cs10.activePairs) ∧
    cs14.totalWeight = sumWeights cs14.pairs cs14.activePairs := by
  have h1 := (c5_totalWeight_invariant.1 1000 cs10 reachable_cs10)
  have h2 := (c5_totalWeight_invariant.2.1 cs13 2000 3 2 cs14 step_cs14_raw rfl)
  exact ⟨h1.1, h1.2 7, h2.1⟩

/-- C8: a second approval attempt by a principal already in the approval set
of a still-pending action fails `AlreadyApproved` (and, the call failing, the
approval count and set are unchanged); on every reachable state each
principal appears at most once in any action's `approvedBy`, and `approvals`
equals the size of that set. -/
theorem c8_approval_idempotent :
    (∀ s now id sd, s.isAdmin sd = true → 0 < id → id ≤ s.actionCounter →
      (s.actions id).executed = false → (s.actions id).expired = false →
      ¬ ((s.actions id).proposedTime + ACTION_EXPIRY < now) →
      sd ∈ (s.actions id).approvedBy →
      approveAction s now id sd = .error Err.alreadyApproved) ∧
    (∀ t s, Reachable t s → ∀ id, (s.actions id).approvedBy.Nodup ∧
      (s.actions id).approvals = (s.actions id).approvedBy.length) := by
  constructor
  · intro s now id sd hadm h0 hle hexec hexp htime hmem
    unfold approveAction
    rw [if_neg (by simp [hadm]), if_neg (by simp [h0, hle])]
    unfold approveActionInternal
    rw [if_neg (by simp [hexec]), if_neg (by simp [hexp]), if_neg htime,
      if_pos hmem]
  · intro t s h id
    have hinv := reachable_inv h
    exact ⟨hinv.2.2.2.2.2.2.2.1 id, hinv.2.2.2.2.2.2.2.2 id⟩

/-- Witness for `c8_approval_idempotent`: signer 2 proposed action 1 of `cs3`
(so 2 is in its approval set); a second approval by 2 fails
`AlreadyApproved`, and on the reachable `cs10` action 1's approval set is
duplicate-free with `approvals` equal to its size. -/
theorem c8_witness :
    approveAction cs3 1000 1 2 = .error Err.alreadyApproved ∧
    (cs10.actions 1).approvedBy.Nodup ∧
    (cs10.actions 1).approvals = (cs10.actions 1).approvedBy.length := by
  refine ⟨?_, ?_⟩
  · exact c8_approval_idempotent.1 cs3 1000 1 2 (by decide) (by decide) (by decide)
      (by decide) (by decide) (by decide) (by decide)
  · exact c8_approval_idempotent.2 1000 cs10 reachable_cs10 1

/-- C9: `executeAction` fails `InsufficientApprovals` on any pending action
whose approval count is below `REQUIRED_APPROVALS = 3` (the failing call
leaves no state change); a propose call records the proposer's own approval,
so a fresh proposal on a reachable state has exactly 1 approval; and in the
concrete flow, propose + one approval (2 total) still fails while a third
approval lets execution succeed. -/
theorem c9_insufficient_approvals :
    (∀ s now id sd, s.isAdmin sd = true → 0 < id → id ≤ s.actionCounter →
      (s.actions id).executed = false → (s.actions id).expired = false →
      (s.actions id).approvals < REQUIRED_APPROVALS →
      executeAction s now id sd = .error Err.insufficientApprovals) ∧
    (∀ t s, Reachable t s → ∀ now sd rate s' cid,
      proposeSetHourlyRewardRate s now sd rate = .ok (s', cid) →
      (s'.actions cid).approvals = 1 ∧ (s'.actions cid).approvedBy = [sd]) ∧
    ((cs6.actions 2).approvals = 1 ∧
     executeAction cs6 1000 2 2 = .error Err.insufficientApprovals ∧
     (cs7.actions 2).approvals = 2 ∧
     executeAction cs7 1000 2 2 = .error Err.insufficientApprovals ∧
     (cs8.actions 2).approvals = 3 ∧
     executeAction cs8 1000 2 2 = .ok cs9) := by
  refine ⟨?_, ?_, by decide, rfl, by decide, rfl, by decide, step_cs9_raw⟩
  · intro s now id sd hadm h0 hle hexec hexp happr
    unfold executeAction
    rw [if_neg (by simp [hadm]), if_neg (by simp [h0, hle])]
    dsimp only
    rw [if_neg (by simp [hexec]), if_neg (by simp [hexp]), if_pos happr]
  · intro t s h now sd rate s' cid hp
    have hinv := reachable_inv h
    obtain ⟨-, hcid, -, -, hslot, -⟩ := proposeSetHourlyRewardRate_ok hp
    subst hcid
    have hEmpty : s.actions (s.actionCounter + 1) = emptyAction :=
      hinv.2.2.2.2.1 _ (by omega)
    rw [hslot, hEmpty]
    exact ⟨rfl, rfl⟩

/-- Witness for `c9_insufficient_approvals`: the general conjunct applied to
`cs7` (2 of 3 approvals) and the propose conjunct applied to a fresh rate
proposal on the reachable `cs10`. -/
theorem c9_witness :
    executeAction cs7 1000 2 2 = .error Err.insufficientApprovals ∧
    ((okS ((proposeSetHourlyRewardRate cs10 2000 2 77).map Prod.fst)).actions 3).approvals = 1 := by
  constructor
  · exact c9_insufficient_approvals.1 cs7 1000 2 2 (by decide) (by decide)
      (by decide) (by decide) (by decide) (by decide)
  · exact (c9_insufficient_approvals.2.1 1000 cs10 reachable_cs10 2000 2 77
      (okS ((proposeSetHourlyRewardRate cs10 2000 2 77).map Prod.fst)) 3 rfl).1

theorem execDispatch_pairs_inactive {s : State} {now : Nat} {pa : PendingAction}
    {s1 : State} {lp : Nat} (hd : execDispatch s now pa = .ok s1)
    (h1 : (s.pairs lp).isActive = false) (h2 : (s.pairs lp).lpToken ≠ 0) :
    (s1.pairs lp).isActive = false ∧ (s1.pairs lp).lpToken ≠ 0 := by
  unfold execDispatch at hd
  split at hd
  · split at hd
    · simp at hd
    · rename_i sU hU
      injection hd with hd
      subst hd
      obtain ⟨-, -, f3, -⟩ := updateAllRewardsLoop_frame hU
      dsimp only
      rw [f3]
      exact ⟨h1, h2⟩
  · split at hd
    · simp at hd
    · rename_i sU hU
      split at hd
      · simp at hd
      · rename_i pm hpm
        injection hd with hd
        subst hd
        obtain ⟨-, -, f3, -⟩ := updateAllRewardsLoop_frame hU
        have hfld := setPairWeights_fields hpm lp
        dsimp only
        rw [hfld.1, hfld.2.1, f3]
        exact ⟨h1, h2⟩
  · split_ifs at hd with g1 g2 g3 g4
    injection hd with hd
    subst hd
    have hlp0 : (s.pairs pa.pairToAdd).lpToken = 0 := by
      by_contra hcon
      exact g1 hcon
    have hne : lp ≠ pa.pairToAdd := fun hcon => h2 (by rw [hcon, hlp0])
    dsimp only
    rw [updFn_apply_ne _ _ hne]
    exact ⟨h1, h2⟩
  · dsimp only at hd
    split_ifs at hd with g
    injection hd with hd
    subst hd
    have hne : lp ≠ pa.pairToRemove := fun hcon => by
      rw [hcon] at h1
      rw [h1] at g
      simp at g
    dsimp only
    rw [updFn_apply_ne _ _ hne]
    exact ⟨h1, h2⟩
  · dsimp only at hd
    injection hd with hd
    subst hd
    exact ⟨h1, h2⟩
  · split_ifs at hd
    injection hd with hd
    subst hd
    exact ⟨h1, h2⟩

theorem inactive_pair_step {t2 : Nat} {a : Act} {s s' : State} {lp : Nat}
    (happ : applyAct t2 a s = .ok s')
    (h1 : (s.pairs lp).isActive = false) (h2 : (s.pairs lp).lpToken ≠ 0) :
    (s'.pairs lp).isActive = false ∧ (s'.pairs lp).lpToken ≠ 0 := by
  cases a with
  | stakeA u lq amt =>
    obtain ⟨-, -, -, s1, pend, hu, rfl⟩ := stake_ok happ
    obtain ⟨-, -, f3, -⟩ := update_frame hu
    dsimp only
    rw [f3]
    exact ⟨h1, h2⟩
  | unstakeA u lq amt =>
    simp only [applyAct] at happ
    cases hres : unstake s t2 u lq amt with
    | error e => rw [hres] at happ; simp [Except.map] at happ
    | ok p =>
      obtain ⟨ps, ppaid⟩ := p
      rw [hres] at happ
      simp only [Except.map] at happ
      injection happ with happ
      subst happ
      obtain ⟨-, -, s1, rewards, hu, -, hsplit⟩ := unstake_ok hres
      obtain ⟨-, -, f3, -⟩ := update_frame hu
      rcases hsplit with ⟨-, -, rfl⟩ | ⟨-, -, rfl⟩ <;>
        · dsimp only
          rw [f3]
          exact ⟨h1, h2⟩
  | claimA u lq =>
    simp only [applyAct] at happ
    cases hres : claimRewards s t2 u lq with
    | error e => rw [hres] at happ; simp [Except.map] at happ
    | ok p =>
      obtain ⟨ps, ppaid⟩ := p
      rw [hres] at happ
      simp only [Except.map] at happ
      injection happ with happ
      subst happ
      obtain ⟨-, s1, hu, -, -, -, rfl⟩ := claimRewards_ok hres
      obtain ⟨-, -, f3, -⟩ := update_frame hu
      dsimp only
      rw [f3]
      exact ⟨h1, h2⟩
  | proposeWithdrawA sd r amt =>
    simp only [applyAct] at happ
    cases hres : proposeWithdrawRewards s t2 sd r amt with
    | error e => rw [hres] at happ; simp [Except.map] at happ
    | ok p =>
      obtain ⟨ps, pc⟩ := p
      rw [hres] at happ
      simp only [Except.map] at happ
      injection happ with happ
      subst happ
      obtain ⟨-, -, -, -, -, hp, -⟩ := proposeWithdrawRewards_ok hres
      rw [hp]
      exact ⟨h1, h2⟩
  | proposeRateA sd r =>
    simp only [applyAct] at happ
    cases hres : proposeSetHourlyRewardRate s t2 sd r with
    | error e => rw [hres] at happ; simp [Except.map] at happ
    | ok p =>
      obtain ⟨ps, pc⟩ := p
      rw [hres] at happ
      simp only [Except.map] at happ
      injection happ with happ
      subst happ
      obtain ⟨-, -, -, -, -, hp, -⟩ := proposeSetHourlyRewardRate_ok hres
      rw [hp]
      exact ⟨h1, h2⟩
  | proposeWeightsA sd ls ws =>
    simp only [applyAct] at happ
    cases hres : proposeUpdatePairWeights s t2 sd ls ws with
    | error e => rw [hres] at happ; simp [Except.map] at happ
    | ok p =>
      obtain ⟨ps, pc⟩ := p
      rw [hres] at happ
      simp only [Except.map] at happ
      injection happ with happ
      subst happ
      obtain ⟨-, -, -, -, -, hp, -⟩ := proposeUpdatePairWeights_ok hres
      rw [hp]
      exact ⟨h1, h2⟩
  | proposeAddA sd lq nm pf w =>
    simp only [applyAct] at happ
    cases hres : proposeAddPair s t2 sd lq nm pf w with
    | error e => rw [hres] at happ; simp [Except.map] at happ
    | ok p =>
      obtain ⟨ps, pc⟩ := p
      rw [hres] at happ
      simp only [Except.map] at happ
      injection happ with happ
      subst happ
      obtain ⟨-, -, -, -, -, -, -, -, hp, -⟩ := proposeAddPair_ok hres
      rw [hp]
      exact ⟨h1, h2⟩
  | proposeRemoveA sd lq =>
    simp only [applyAct] at happ
    cases hres : proposeRemovePair s t2 sd lq with
    | error e => rw [hres] at happ; simp [Except.map] at happ
    | ok p =>
      obtain ⟨ps, pc⟩ := p
      rw [hres] at happ
      simp only [Except.map] at happ
      injection happ with happ
      subst happ
      obtain ⟨-, -, -, -, -, -, -, hp, -⟩ := proposeRemovePair_ok hres
      rw [hp]
      exact ⟨h1, h2⟩
  | proposeChangeSignerA sd o n =>
    simp only [applyAct] at happ
    cases hres : proposeChangeSigner s t2 sd o n with
    | error e => rw [hres] at happ; simp [Except.map] at happ
    | ok p =>
      obtain ⟨ps, pc⟩ := p
      rw [hres] at happ
      simp only [Except.map] at happ
      injection happ with happ
      subst happ
      obtain ⟨-, -, -, -, -, -, -, -, hp, -⟩ := proposeChangeSigner_ok hres
      rw [hp]
      exact ⟨h1, h2⟩
  | approveA sd j =>
    simp only [applyAct] at happ
    obtain ⟨-, -, -, hint⟩ := approveAction_ok happ
    obtain ⟨-, -, -, -, rfl⟩ := approveActionInternal_ok hint
    exact ⟨h1, h2⟩
  | executeA sd j =>
    simp only [applyAct] at happ
    obtain ⟨-, -, -, -, -, -, -, s1, hd, rfl⟩ := executeAction_ok happ
    have hres := execDispatch_pairs_inactive hd h1 h2
    exact hres
  | handleExpiredA sd j =>
    simp only [applyAct] at happ
    obtain ⟨-, -, -, -, -, rfl⟩ := handleExpiredAction_ok happ
    exact ⟨h1, h2⟩
  | cleanupA sd =>
    simp only [applyAct] at happ
    obtain ⟨-, rfl⟩ := cleanupExpiredActions_ok happ
    exact ⟨h1, h2⟩
  | fundA u lq ua ca ra =>
    simp only [applyAct] at happ
    injection happ with happ
    subst happ
    exact ⟨h1, h2⟩

/-- C10: once a REMOVE_PAIR action is executed, the pool is deactivated and
stays deactivated in every later state (it cannot even be re-added, because
its record keeps a nonzero token handle); every subsequent `stake`,
`unstake` and `claimRewards` on it fails `PairNotActive`, for every user and
amount, so LP tokens or pending rewards still recorded for that pool are
unreachable through any user operation. -/
theorem c10_removed_pool_frozen {s : State} {now id sd : Nat} {s' : State}
    (h : executeAction s now id sd = .ok s')
    (ht : (s.actions id).actionType = ActionType.REMOVE_PAIR)
    (hlp : (s.pairs (s.actions id).pairToRemove).lpToken ≠ 0) :
    ∀ t2 s2, Reach now s' t2 s2 →
      (s2.pairs (s.actions id).pairToRemove).isActive = false ∧
      (∀ u amt, stake s2 t2 u (s.actions id).pairToRemove amt =
        .error Err.pairNotActive) ∧
      (∀ u amt, unstake s2 t2 u (s.actions id).pairToRemove amt =
        .error Err.pairNotActive) ∧
      (∀ u, claimRewards s2 t2 u (s.actions id).pairToRemove =
        .error Err.pairNotActive) := by
  obtain ⟨-, -, -, -, -, -, -, s1, hd, hs'⟩ := executeAction_ok h
  obtain ⟨hact, hs1⟩ := execDispatch_remove hd ht
  have hbase : (s'.pairs (s.actions id).pairToRemove).isActive = false ∧
      (s'.pairs (s.actions id).pairToRemove).lpToken ≠ 0 := by
    subst hs'
    subst hs1
    dsimp only
    rw [updFn_apply_same]
    exact ⟨rfl, hlp⟩
  intro t2 s2 hr
  have hfrozen : (s2.pairs (s.actions id).pairToRemove).isActive = false ∧
      (s2.pairs (s.actions id).pairToRemove).lpToken ≠ 0 := by
    induction hr with
    | refl => exact hbase
    | step a hr2 hle2 happ ih => exact inactive_pair_step happ ih.1 ih.2
  refine ⟨hfrozen.1, ?_, ?_, ?_⟩
  · intro u amt
    unfold stake
    rw [if_pos (by simp [hfrozen.1])]
  · intro u amt
    unfold unstake
    rw [if_pos (by simp [hfrozen.1])]
  · intro u
    unfold claimRewards
    rw [if_pos (by simp [hfrozen.1])]

/-- Action 3 in this branch: remove pair 7, proposed at t = 2000 on `cs10`. -/
def cs20 : State := okS (applyAct 2000 (Act.proposeRemoveA 2 7) cs10)

def cs21 : State := okS (applyAct 2000 (Act.approveA 3 3) cs20)

def cs22 : State := okS (applyAct 2000 (Act.approveA 4 3) cs21)

def cs23 : State := okS (applyAct 2000 (Act.executeA 2 3) cs22)

theorem step_cs23_raw : executeAction cs22 2000 3 2 = .ok cs23 := rfl

/-- Witness for `c10_removed_pool_frozen`: after the executed removal of
pair 7 (state `cs23`, where user 10 still has a staked amount recorded),
stake, unstake and claimRewards on pair 7 all fail `PairNotActive`. -/
theorem c10_witness :
    (cs23.pairs 7).isActive = false ∧
    ((cs23.userStakes 10 7).amount = 10 ^ 18) ∧
    stake cs23 2000 10 7 (10 ^ 18) = .error Err.pairNotActive ∧
    unstake cs23 2000 10 7 (10 ^ 18) = .error Err.pairNotActive ∧
    claimRewards cs23 2000 10 7 = .error Err.pairNotActive := by
  have h := c10_removed_pool_frozen step_cs23_raw (by decide) (by decide)
    2000 cs23 (Reach.refl 2000 cs23)
  exact ⟨h.1, by decide, h.2.1 10 (10 ^ 18), h.2.2.1 10 (10 ^ 18), h.2.2.2 10⟩

/-- Reward accrued per duration `T` at hourly rate `R` by the sole staker of
the sole pool (who holds the pool's entire staked supply): the integer
per-second rate times the duration. -/
def accrue (R T : Nat) : Nat := R / SECONDS_PER_HOUR * T

/-- Action 3 in this branch: change the hourly rate from 240x10^18 to
120x10^18, proposed at t = 4600 on `cs10` (one hour after the stake). -/
def cs30 : State := okS (applyAct 4600 (Act.proposeRateA 2 (120 * 10 ^ 18)) cs10)

def cs31 : State := okS (applyAct 4600 (Act.approveA 3 3) cs30)

def cs32 : State := okS (applyAct 4600 (Act.approveA 4 3) cs31)

def cs33 : State := okS (applyAct 4600 (Act.executeA 2 3) cs32)

theorem step_cs33_raw : executeAction cs32 4600 3 2 = .ok cs33 := rfl

/-- C6: executing a rate change (or weight change) first synchronizes the
reward index of every active pool, using the old rate and old weights, and
only then installs the new rate or weights; consequently a staker who
accrues for duration T1 at rate R1 and duration T2 at rate R2 is paid
`accrue R1 T1 + accrue R2 T2`, not `accrue R2 (T1 + T2)` — shown exactly on
a reachable two-phase run (T1 = T2 = 3600 s, R1 = 240x10^18,
R2 = 120x10^18). -/
theorem c6_rate_change_non_retroactive :
    (∀ s now id sd s', executeAction s now id sd = .ok s' →
      (s.actions id).actionType = ActionType.SET_HOURLY_REWARD_RATE →
      ∃ sU, updateAllRewardsLoop now s.activePairs s = .ok sU ∧
        sU.hourlyRewardRate = s.hourlyRewardRate ∧
        s'.hourlyRewardRate = (s.actions id).newHourlyRewardRate ∧
        s'.rewardPerTokenStored = sU.rewardPerTokenStored ∧
        s'.lastUpdateTime = sU.lastUpdateTime ∧
        s'.userStakes = sU.userStakes) ∧
    (∀ s now id sd s', executeAction s now id sd = .ok s' →
      (s.actions id).actionType = ActionType.UPDATE_PAIR_WEIGHTS →
      ∃ sU pm, updateAllRewardsLoop now s.activePairs s = .ok sU ∧
        setPairWeights (s.actions id).pairs (s.actions id).weights sU.pairs = .ok pm ∧
        sU.pairs = s.pairs ∧
        s'.rewardPerTokenStored = sU.rewardPerTokenStored ∧
        s'.lastUpdateTime = sU.lastUpdateTime ∧
        s'.userStakes = sU.userStakes) ∧
    (cs10.hourlyRewardRate = 240 * 10 ^ 18 ∧
      executeAction cs32 4600 3 2 = .ok cs33 ∧
      cs33.hourlyRewardRate = 120 * 10 ^ 18 ∧
      claimRewards cs33 8200 10 7 = .ok
        (okS ((claimRewards cs33 8200 10 7).map Prod.fst), 359999999999999996400) ∧
      359999999999999996400 =
        accrue (240 * 10 ^ 18) 3600 + accrue (120 * 10 ^ 18) 3600 ∧
      359999999999999996400 ≠ accrue (120 * 10 ^ 18) (3600 + 3600)) := by
  refine ⟨?_, ?_, rfl, step_cs33_raw, rfl, rfl, by decide, by decide⟩
  · intro s now id sd s' h ht
    obtain ⟨-, -, -, -, -, -, -, s1, hd, rfl⟩ := executeAction_ok h
    unfold execDispatch at hd
    rw [ht] at hd
    dsimp only at hd
    cases hU : updateAllRewards s now with
    | error e => rw [hU] at hd; simp at hd
    | ok sU =>
      rw [hU] at hd
      dsimp only at hd
      injection hd with hd
      subst hd
      obtain ⟨-, -, -, -, -, -, -, -, -, -, -, -, f13⟩ := updateAllRewardsLoop_frame hU
      exact ⟨sU, hU, f13, rfl, rfl, rfl, rfl⟩
  · intro s now id sd s' h ht
    obtain ⟨-, -, -, -, -, -, -, s1, hd, rfl⟩ := executeAction_ok h
    obtain ⟨sU, pm, hU, hpm, rfl⟩ := execDispatch_update hd ht
    obtain ⟨-, -, f3, -⟩ := updateAllRewardsLoop_frame hU
    exact ⟨sU, pm, hU, hpm, f3, rfl, rfl, rfl⟩

/-- Witness for `c6_rate_change_non_retroactive`: the first conjunct applied
to the concrete executed rate change of `cs33`, showing the index of pool 7
was synchronized to the pre-change value before the new rate took effect. -/
theorem c6_witness :
    ∃ sU, updateAllRewardsLoop 4600 cs32.activePairs cs32 = .ok sU ∧
      sU.hourlyRewardRate = cs32.hourlyRewardRate ∧
      cs33.hourlyRewardRate = (cs32.actions 3).newHourlyRewardRate ∧
      cs33.rewardPerTokenStored = sU.rewardPerTokenStored ∧
      cs33.lastUpdateTime = sU.lastUpdateTime ∧
      cs33.userStakes = sU.userStakes :=
  c6_rate_change_non_retroactive.1 cs32 4600 3 2 cs33 step_cs33_raw (by decide)

end LPStaking
